import Mathlib

/-!
Shallow embedding of the rtsp-training-data-collector repository
(src/config.py, src/file_utils.py, src/frame_classifier.py,
src/frame_collector.py) and verification of its specification claims.

Python strings are modelled as Lean `String`; character-level pattern
matching (the `re` patterns of the source) is carried out on `List Char`
via `String.data`.  Python dicts keyed by strings are modelled as
association lists with first-occurrence lookup and in-place replacement,
which matches dict semantics on the unique-key states the program builds.
-/

namespace RTSP

/-- First-occurrence lookup in an association list (Python `d[k]` / `d.get(k)`). -/
def lookupD {β : Type} : List (String × β) → String → Option β
  | [], _ => none
  | p :: rest, k => if p.1 = k then some p.2 else lookupD rest k

/-- Python `d[k] = v`: replace the first binding of `k` in place, else append
(dict insertion order). -/
def insertD {β : Type} : List (String × β) → String → β → List (String × β)
  | [], k, v => [(k, v)]
  | p :: rest, k, v => if p.1 = k then (k, v) :: rest else p :: insertD rest k v

/-- `config.py` / `FrameClassifier.CATEGORIES`. -/
def CATEGORIES : List (String × String) :=
  [("0", "null"),
   ("1", "forno_enchendo"),
   ("2", "sinterizacao_acontecendo"),
   ("3", "despejo_acontecendo"),
   ("4", "panela_voltando_posicao_normal"),
   ("5", "forno_vazio")]

/-- `config.py` / `FrameClassifier.SUBCATEGORIES`. -/
def SUBCATEGORIES : List (String × String) :=
  [("i", "inicio"), ("m", "meio"), ("f", "fim")]

/-- The keys of the `self.stats` dict as initialised in `FrameClassifier.__init__`:
`"null"` plus `cat ++ "_" ++ subcat` for every non-null category and subcategory. -/
def statKeys : List String :=
  "null" ::
    ((CATEGORIES.map Prod.snd).filter (fun c => c ≠ "null")).flatMap
      (fun c => (SUBCATEGORIES.map Prod.snd).map (fun s => c ++ "_" ++ s))

/-- Metadata block stored inside a classification record
(`_classify_frame`, frame_classifier.py lines 228-232). -/
structure Metadata where
  round_id : String
  frame_number : String
  timestamp : String
deriving DecidableEq, Repr

/-- A classification record as built by `_classify_frame`
(frame_classifier.py lines 235-246).  The subcategory fields are `Option`s
because the corresponding dict keys are present only for non-null
classifications. -/
structure Record where
  category_id : String
  category_name : String
  original_path : String
  metadata : Metadata
  classified_at : String
  subcategory_id : Option String
  subcategory_name : Option String
deriving DecidableEq, Repr

/-- In-memory ledger state: the `self.classifications` dict together with the
`self.stats` dict (modelled as a total function that is `0` outside the
initialised keys; the source guards every access by key membership). -/
structure LedgerState where
  classifications : List (String × Record)
  stats : String → Int

/-- Outcome of `_classify_frame`: the source returns `False` both on the two
validation failures (Rejected) and on the identical-reclassification path
(NoOp), and `True` when the record is written (Applied). -/
inductive Outcome where
  | Applied
  | NoOp
  | Rejected
deriving DecidableEq, Repr

/-- `stats[k] += d` on the stats dict. -/
def bumpBy (stats : String → Int) (key : String) (d : Int) : String → Int :=
  fun x => if x = key then stats x + d else stats x

/- ----------------------------------------------------------------- -/
/- Character-level parsing helpers (Python `re` patterns).            -/
/- ----------------------------------------------------------------- -/

/-- Strip an expected literal from the front of a character list. -/
def stripPre : List Char → List Char → Option (List Char)
  | [], s => some s
  | _ :: _, [] => none
  | p :: ps, c :: cs => if c = p then stripPre ps cs else none

/-- `l` ends with the literal `sfx`. -/
def endsWithCL (s sfx : List Char) : Bool :=
  sfx.reverse.isPrefixOf s.reverse

/-- Numeric value of a run of decimal digits. -/
def digitsToNat (ds : List Char) : Nat :=
  ds.foldl (fun n c => n * 10 + (c.toNat - 48)) 0

/-- Prefix match of `round_(\d+)_(\d+)_(\d+)\.jpg` (the `re.match` calls of
`_classify_frame` and `load_frame_files`; `re.match` anchors only at the
start, so trailing characters are allowed).  Returns the three digit groups. -/
def parseFrameParts (f : String) : Option (List Char × List Char × List Char) :=
  match stripPre "round_".data f.data with
  | none => none
  | some r1 =>
    let d1 := r1.takeWhile Char.isDigit
    let r2 := r1.dropWhile Char.isDigit
    if d1 = [] then none
    else match r2 with
      | '_' :: r3 =>
        let d2 := r3.takeWhile Char.isDigit
        let r4 := r3.dropWhile Char.isDigit
        if d2 = [] then none
        else match r4 with
          | '_' :: r5 =>
            let d3 := r5.takeWhile Char.isDigit
            let r6 := r5.dropWhile Char.isDigit
            if d3 = [] then none
            else if ".jpg".data.isPrefixOf r6 then some (d1, d2, d3) else none
          | _ => none
      | _ => none

/-- Frame metadata extraction of `_classify_frame`
(frame_classifier.py lines 218-232). -/
def frameMetadata (frame_filename : String) : Metadata :=
  match parseFrameParts frame_filename with
  | some (d1, d2, d3) =>
      { round_id := String.mk d1, frame_number := String.mk d2, timestamp := String.mk d3 }
  | none =>
      { round_id := "unknown", frame_number := "unknown", timestamp := "unknown" }

/- ----------------------------------------------------------------- -/
/- `_classify_frame` (frame_classifier.py lines 172-278).             -/
/- ----------------------------------------------------------------- -/

/-- `SUBCATEGORIES.get(subcategory) if subcategory else None`; also note that
`subcategory not in SUBCATEGORIES` holds exactly when this is `none`. -/
def subLookup (subcategory : Option String) : Option String :=
  match subcategory with
  | none => none
  | some s => lookupD SUBCATEGORIES s

/-- Decrement of the old bucket on reclassification
(frame_classifier.py lines 211-215), with the source's key-membership guard. -/
def decBucket (stats : String → Int) (old : Record) : String → Int :=
  if old.category_name = "null" then bumpBy stats old.category_name (-1)
  else match old.subcategory_name with
    | some sub =>
        if statKeys.contains (old.category_name ++ "_" ++ sub)
        then bumpBy stats (old.category_name ++ "_" ++ sub) (-1)
        else stats
    | none => stats

/-- Increment of the new bucket (frame_classifier.py lines 251-257); the
non-null stat key is `f"{category_name}_{subcategory_name}"`. -/
def incBucket (stats : String → Int) (category_name : String)
    (subcategory_name : Option String) : String → Int :=
  if category_name = "null" then bumpBy stats category_name 1
  else bumpBy stats (category_name ++ "_" ++ (subcategory_name.getD "None")) 1

/-- The record written by `_classify_frame` (lines 235-246): subcategory
fields are added only when `subcategory and subcategory_name` are truthy. -/
def newRecord (frames_dir frame_filename category category_name : String)
    (subcategory : Option String) (subcategory_name : Option String)
    (now : String) : Record :=
  let base : Record :=
    { category_id := category,
      category_name := category_name,
      original_path := frames_dir ++ "/" ++ frame_filename,
      metadata := frameMetadata frame_filename,
      classified_at := now,
      subcategory_id := none,
      subcategory_name := none }
  match subcategory, subcategory_name with
  | some s, some n => { base with subcategory_id := some s, subcategory_name := some n }
  | _, _ => base

/-- `FrameClassifier._classify_frame` (frame_classifier.py lines 172-278):
validation, identical-reclassification detection, stats decrement of the old
bucket, record write, stats increment of the new bucket.  The `now` argument
stands for `datetime.now().isoformat()`. -/
def classifyFrame (st : LedgerState) (frames_dir frame_filename category : String)
    (subcategory : Option String) (now : String) : Outcome × LedgerState :=
  match lookupD CATEGORIES category with
  | none => (Outcome.Rejected, st)
  | some category_name =>
    if category ≠ "0" ∧ subLookup subcategory = none then (Outcome.Rejected, st)
    else
      let subcategory_name := subLookup subcategory
      match lookupD st.classifications frame_filename with
      | some old =>
        if old.category_name = category_name ∧ old.subcategory_name = subcategory_name then
          (Outcome.NoOp, st)
        else
          let r := newRecord frames_dir frame_filename category category_name
                      subcategory subcategory_name now
          (Outcome.Applied,
            { classifications := insertD st.classifications frame_filename r,
              stats := incBucket (decBucket st.stats old) category_name subcategory_name })
      | none =>
          let r := newRecord frames_dir frame_filename category category_name
                      subcategory subcategory_name now
          (Outcome.Applied,
            { classifications := insertD st.classifications frame_filename r,
              stats := incBucket st.stats category_name subcategory_name })

/-- One step of the stats-reconstruction loop of `_load_classifications`
(frame_classifier.py lines 106-113). -/
def statStep (stats : String → Int) (r : Record) : String → Int :=
  if r.category_name = "null" then bumpBy stats r.category_name 1
  else match r.subcategory_name with
    | some sub =>
        if statKeys.contains (r.category_name ++ "_" ++ sub)
        then bumpBy stats (r.category_name ++ "_" ++ sub) 1
        else stats
    | none => stats

/-- The stats dict produced by `_load_classifications` from a loaded ledger:
all initialised keys start at `0`, then one `statStep` per record. -/
def loadStats (cls : List (String × Record)) : String → Int :=
  cls.foldl (fun stats p => statStep stats p.2) (fun _ => 0)

/-- The bucket a record is counted under, if any: `"null"` for null records,
otherwise `category_name_subcategory_name` provided the subcategory is
present and the key is an initialised stats key (mirroring the guards shared
by `_load_classifications` and the decrement in `_classify_frame`). -/
def recordBucket (r : Record) : Option String :=
  if r.category_name = "null" then some "null"
  else match r.subcategory_name with
    | some sub =>
        if statKeys.contains (r.category_name ++ "_" ++ sub)
        then some (r.category_name ++ "_" ++ sub)
        else none
    | none => none

/-- Specification-level from-scratch recompute of the aggregate statistics:
the count of records falling in each bucket. -/
def recomputeStats (cls : List (String × Record)) (k : String) : Int :=
  (cls.countP (fun p => recordBucket p.2 == some k) : Int)

/-- Sum of all bucket counts. -/
def totalCount (stats : String → Int) : Int :=
  (statKeys.map stats).sum

/-- A record is well-formed when its category id/name agree with the fixed
category table and it carries exactly one valid subcategory iff the category
is not `"null"`. -/
def wfRecord (r : Record) : Bool :=
  (lookupD CATEGORIES r.category_id == some r.category_name) &&
  (if r.category_name = "null" then
    r.subcategory_id == none && r.subcategory_name == none
  else
    match r.subcategory_id, r.subcategory_name with
    | some s, some n => lookupD SUBCATEGORIES s == some n
    | _, _ => false)

/-- A well-formed ledger: every record is well-formed. -/
def WFLedger (cls : List (String × Record)) : Prop :=
  ∀ p ∈ cls, wfRecord p.2 = true

/-- Invariant: a record for the "no event" (null) category never carries a
subcategory (neither id nor name field). -/
def NullNoSub (cls : List (String × Record)) : Prop :=
  ∀ p ∈ cls, p.2.category_name = "null" →
    p.2.subcategory_id = none ∧ p.2.subcategory_name = none

/-- A `(category, subcategory)` argument pair that is a valid classification:
the category id is in the fixed table, and a valid subcategory is supplied
exactly when the category is not `"0"`. -/
def validPair (category : String) (subcategory : Option String) : Prop :=
  (lookupD CATEGORIES category).isSome = true ∧
  (if category = "0" then subcategory = none else (subLookup subcategory).isSome = true)

/-- Example classification record (a frame classified as category 1 /
subcategory i), used as concrete witness data. -/
def exRecord1 : Record :=
  { category_id := "1",
    category_name := "forno_enchendo",
    original_path := "rtsp_test_frames/round_1_1_5.jpg",
    metadata := { round_id := "1", frame_number := "1", timestamp := "5" },
    classified_at := "t0",
    subcategory_id := some "i",
    subcategory_name := some "inicio" }

/-- Example one-record ledger, used as concrete witness data. -/
def exLedger1 : List (String × Record) := [("round_1_1_5.jpg", exRecord1)]

/-- Example ledger state whose stats are the load-time recompute. -/
def exState1 : LedgerState :=
  { classifications := exLedger1, stats := loadStats exLedger1 }

/-- Decoding table from a non-null stats key back to the
`(category_name, subcategory_name)` pair that built it; used to show the 15
non-null stats keys are pairwise distinct. -/
def keyTable : List (String × (String × String)) :=
  ((CATEGORIES.map Prod.snd).filter (fun c => c ≠ "null")).flatMap
    (fun c => (SUBCATEGORIES.map Prod.snd).map (fun s => (c ++ "_" ++ s, (c, s))))

/- ----------------------------------------------------------------- -/
/- `file_utils.load_frame_files` (file_utils.py lines 40-80).         -/
/- ----------------------------------------------------------------- -/

/-- `file.lower().endswith('.jpg')` (ASCII lowering, as for these filenames). -/
def lowerEndsJpg (f : String) : Bool :=
  endsWithCL (f.data.map Char.toLower) ".jpg".data

/-- `file.startswith('round_')`. -/
def startsRound (f : String) : Bool :=
  "round_".data.isPrefixOf f.data

/-- The `(round_id, frame_num)` sort key parsed by the `re.match` in
`load_frame_files` (prefix match of `round_(\d+)_(\d+)_\d+\.jpg`). -/
def parseFrameName (f : String) : Option (Nat × Nat) :=
  (parseFrameParts f).map (fun t => (digitsToNat t.1, digitsToNat t.2.1))

/-- Ascending order on the `(filename, round_id, frame_num)` triples by the
`(round_id, frame_num)` key, as used by `processed_files.sort(key=...)`. -/
def keyLe (a b : String × Nat × Nat) : Prop :=
  a.2.1 < b.2.1 ∨ (a.2.1 = b.2.1 ∧ a.2.2 ≤ b.2.2)

instance : DecidableRel keyLe := fun a b => by
  unfold keyLe; infer_instance

instance : IsTotal (String × Nat × Nat) keyLe :=
  ⟨by intro a b; unfold keyLe; omega⟩

instance : IsTrans (String × Nat × Nat) keyLe :=
  ⟨by intro a b c; unfold keyLe; omega⟩

/-- `file_utils.load_frame_files`: the directory listing is `none` when the
directory does not exist (the function then returns `[]`); otherwise the
entries are pre-filtered by `lower().endswith('.jpg') and startswith('round_')`,
parsed by the regex prefix match, sorted stably ascending by
`(round_id, frame_num)` (Python `list.sort` is a stable ascending sort,
embedded as a stable insertion sort), and the filenames are returned. -/
def load_frame_files (listing : Option (List String)) : List String :=
  match listing with
  | none => []
  | some files =>
      let all_files := files.filter (fun f => lowerEndsJpg f && startsRound f)
      let processed := all_files.filterMap
        (fun f => (parseFrameName f).map (fun p => (f, p.1, p.2)))
      (processed.insertionSort keyLe).map Prod.fst

/-- The filename filter that `load_frame_files` actually applies: both
pre-filters plus a successful regex prefix match. -/
def acceptedFrameName (f : String) : Bool :=
  (lowerEndsJpg f && startsRound f) && (parseFrameName f).isSome

/-- Modelled from the spec (§4.3, §6): the frame-identity filename pattern
`round_<round_id>_<sequence>_<timestamp>.jpg` matched exactly (no trailing
characters) with a case-insensitive extension, as the specification of the
claimed filter.  Used only to compare the claimed filter with the code's. -/
def specFramePattern (f : String) : Bool :=
  match stripPre "round_".data f.data with
  | none => false
  | some r1 =>
    let d1 := r1.takeWhile Char.isDigit
    let r2 := r1.dropWhile Char.isDigit
    if d1 = [] then false
    else match r2 with
      | '_' :: r3 =>
        let d2 := r3.takeWhile Char.isDigit
        let r4 := r3.dropWhile Char.isDigit
        if d2 = [] then false
        else match r4 with
          | '_' :: r5 =>
            let d3 := r5.takeWhile Char.isDigit
            let r6 := r5.dropWhile Char.isDigit
            if d3 = [] then false
            else r6.map Char.toLower = ".jpg".data
          | _ => false
      | _ => false

/- ----------------------------------------------------------------- -/
/- `frame_collector.get_next_round_id` (frame_collector.py 30-79).    -/
/- ----------------------------------------------------------------- -/

/-- `s.strip()` on the character list. -/
def trimCL (s : List Char) : List Char :=
  ((s.dropWhile Char.isWhitespace).reverse.dropWhile Char.isWhitespace).reverse

/-- Python `int(s)` on a decimal literal with optional sign (ASCII digits),
`none` on anything unparsable (the `ValueError` path). -/
def pyInt (s : String) : Option Int :=
  let t := trimCL s.data
  let signed : Int × List Char :=
    match t with
    | '+' :: rest => (1, rest)
    | '-' :: rest => (-1, rest)
    | rest => (1, rest)
  if signed.2 ≠ [] ∧ signed.2.all Char.isDigit then
    some (signed.1 * (digitsToNat signed.2 : Int))
  else none

/-- `int(f.read().strip())` guarded by the `try/except`: the state file
content is `none` on a missing/unreadable file; unparsable content also
falls back to `0`. -/
def lastRoundFromState (stateContent : Option String) : Int :=
  match stateContent with
  | none => 0
  | some s => (pyInt s).getD 0

/-- Full match of `^round_(\d+)_.*\.jpg$` (the collector's scan pattern),
returning the round number. -/
def collectorRound (f : String) : Option Nat :=
  match stripPre "round_".data f.data with
  | none => none
  | some r1 =>
    let d1 := r1.takeWhile Char.isDigit
    let r2 := r1.dropWhile Char.isDigit
    if d1 = [] then none
    else match r2 with
      | '_' :: tail => if endsWithCL tail ".jpg".data then some (digitsToNat d1) else none
      | _ => none

/-- One step of the scan loop of `get_next_round_id`: keep the running
maximum, updating it when a matching filename has a larger round number. -/
def roundAcc (acc : Int) (f : String) : Int :=
  match collectorRound f with
  | some r => if (r : Int) > acc then (r : Int) else acc
  | none => acc

/-- The filename scan of `get_next_round_id`: max round among matching
filenames, `0` when the directory is missing (`listing = none`) or nothing
matches. -/
def maxRoundFromFiles (listing : Option (List String)) : Int :=
  match listing with
  | none => 0
  | some files => files.foldl roundAcc 0

/-- `frame_collector.get_next_round_id`: reconcile the persisted state with
the filesystem scan and return `max + 1`. -/
def get_next_round_id (stateContent : Option String) (listing : Option (List String)) : Int :=
  let last_round := max (lastRoundFromState stateContent) (maxRoundFromFiles listing)
  last_round + 1

/- ----------------------------------------------------------------- -/
/- `FrameClassifier.run` interaction loop (frame_classifier.py 692-806). -/
/- ----------------------------------------------------------------- -/

/-- The three subcategory-selection keys handled by `run` (i, m, f). -/
inductive SubKey where
  | i
  | m
  | f
deriving DecidableEq, Repr

/-- Subcategory id set by each selection key. -/
def subKeyId : SubKey → String
  | .i => "i"
  | .m => "m"
  | .f => "f"

/-- The discrete command events dispatched by the key handler of `run`
(one constructor per `elif` branch; `unknownKey` is the final `else`). -/
inductive Event where
  | toggleHelp
  | toggleStats
  | selectSubcat (s : SubKey)
  | classifyKey (c : String)
  | navNext
  | navPrev
  | jump10
  | jump100
  | jump1000
  | unknownKey
deriving DecidableEq, Repr

/-- The mutable interaction state of `FrameClassifier` used by `run`. -/
structure ControllerState where
  current_index : Int
  show_help : Bool
  show_stats : Bool
  current_subcategory : Option String
  ledger : LedgerState

/-- The event-dispatch part of one iteration of the `run` loop
(frame_classifier.py lines 728-802), before the end-of-iteration clamp. -/
def stepBody (frames_dir : String) (frames : List String) (st : ControllerState)
    (e : Event) (now : String) : ControllerState :=
  let current_frame := frames.getD st.current_index.toNat ""
  match e with
  | .toggleHelp =>
      let h := !st.show_help
      { st with show_help := h, show_stats := if h then false else st.show_stats }
  | .toggleStats =>
      let s := !st.show_stats
      { st with show_stats := s, show_help := if s then false else st.show_help }
  | .selectSubcat s => { st with current_subcategory := some (subKeyId s) }
  | .classifyKey c =>
      if (lookupD CATEGORIES c).isSome then
        if !st.show_help && !st.show_stats then
          let was_classified := (lookupD st.ledger.classifications current_frame).isSome
          if c = "0" then
            let r := classifyFrame st.ledger frames_dir current_frame c none now
            if r.1 = Outcome.Applied then
              if was_classified then { st with ledger := r.2 }
              else { st with ledger := r.2, current_index := st.current_index + 1 }
            else { st with ledger := r.2 }
          else
            match st.current_subcategory with
            | some sub =>
                let r := classifyFrame st.ledger frames_dir current_frame c (some sub) now
                if r.1 = Outcome.Applied then
                  if was_classified then { st with ledger := r.2 }
                  else { st with ledger := r.2, current_index := st.current_index + 1 }
                else { st with ledger := r.2 }
            | none => st
        else st
      else st
  | .navNext => { st with current_index := st.current_index + 1 }
  | .navPrev =>
      let idx := st.current_index - 1
      { st with current_index := if idx < 0 then 0 else idx }
  | .jump10 => { st with current_index := min (st.current_index + 10) ((frames.length : Int) - 1) }
  | .jump100 => { st with current_index := min (st.current_index + 100) ((frames.length : Int) - 1) }
  | .jump1000 => { st with current_index := min (st.current_index + 1000) ((frames.length : Int) - 1) }
  | .unknownKey => st

/-- One full iteration of the `run` loop: event dispatch followed by the
end-of-iteration clamp `if current_index >= len(frame_files): len - 1`
(frame_classifier.py lines 805-806). -/
def step (frames_dir : String) (frames : List String) (st : ControllerState)
    (e : Event) (now : String) : ControllerState :=
  let st1 := stepBody frames_dir frames st e now
  if st1.current_index ≥ (frames.length : Int) then
    { st1 with current_index := (frames.length : Int) - 1 }
  else st1

/-- The classify-call outcome observed during a `classifyKey` event:
`none` when no `_classify_frame` call is made (overlay active, key not a
category key, or no pending subcategory for a non-null category). -/
def classifyCallOutcome (frames_dir : String) (frames : List String)
    (st : ControllerState) (c : String) (now : String) : Option Outcome :=
  let current_frame := frames.getD st.current_index.toNat ""
  if (lookupD CATEGORIES c).isSome && (!st.show_help && !st.show_stats) then
    if c = "0" then some (classifyFrame st.ledger frames_dir current_frame c none now).1
    else
      match st.current_subcategory with
      | some sub => some (classifyFrame st.ledger frames_dir current_frame c (some sub) now).1
      | none => none
  else none

/- ----------------------------------------------------------------- -/
/- Ledger persistence (file_utils.save_classifications /              -/
/- load_classifications): JSON serialisation of the mapping.          -/
/- ----------------------------------------------------------------- -/

/-- The fragment of JSON values needed by the classification ledger
(`json.dump` / `json.load` round-trip through this structure; the text layer
is the opaque byte store). -/
inductive Jx where
  | str (s : String)
  | obj (fields : List (String × Jx))

/-- JSON object produced for the `metadata` sub-dict. -/
def encMetadata (m : Metadata) : Jx :=
  .obj [("round_id", .str m.round_id),
        ("frame_number", .str m.frame_number),
        ("timestamp", .str m.timestamp)]

/-- JSON object produced for one classification record: the keys written by
`_classify_frame`, with the subcategory keys present only when the record
carries them. -/
def encRecord (r : Record) : Jx :=
  .obj ([("category_id", .str r.category_id),
         ("category_name", .str r.category_name),
         ("original_path", .str r.original_path),
         ("metadata", encMetadata r.metadata),
         ("classified_at", .str r.classified_at)] ++
    (match r.subcategory_id with
     | some s => [("subcategory_id", Jx.str s)]
     | none => []) ++
    (match r.subcategory_name with
     | some n => [("subcategory_name", Jx.str n)]
     | none => []))

/-- `save_classifications`: serialise the whole mapping (one JSON object,
keyed by frame filename, insertion order preserved). -/
def encLedger (cls : List (String × Record)) : Jx :=
  .obj (cls.map (fun p => (p.1, encRecord p.2)))

/-- Read a string field. -/
def jStr : Jx → Option String
  | .str s => some s
  | .obj _ => none

/-- Parse the `metadata` sub-object back. -/
def decMetadata (j : Jx) : Option Metadata :=
  match j with
  | .obj fs =>
      match (lookupD fs "round_id").bind jStr, (lookupD fs "frame_number").bind jStr,
            (lookupD fs "timestamp").bind jStr with
      | some a, some b, some c => some { round_id := a, frame_number := b, timestamp := c }
      | _, _, _ => none
  | _ => none

/-- Parse one classification record back from its JSON object. -/
def decRecord (j : Jx) : Option Record :=
  match j with
  | .obj fs =>
      match (lookupD fs "category_id").bind jStr, (lookupD fs "category_name").bind jStr,
            (lookupD fs "original_path").bind jStr, (lookupD fs "metadata").bind decMetadata,
            (lookupD fs "classified_at").bind jStr with
      | some ci, some cn, some op, some md, some ca =>
          some { category_id := ci, category_name := cn, original_path := op,
                 metadata := md, classified_at := ca,
                 subcategory_id := (lookupD fs "subcategory_id").bind jStr,
                 subcategory_name := (lookupD fs "subcategory_name").bind jStr }
      | _, _, _, _, _ => none
  | _ => none

/-- `load_classifications`: parse the whole mapping back. -/
def decLedger (j : Jx) : Option (List (String × Record)) :=
  match j with
  | .obj fs => fs.mapM (fun p => (decRecord p.2).map (fun r => (p.1, r)))
  | _ => none

/- ----------------------------------------------------------------- -/
/- Association-list lemmas.                                           -/
/- ----------------------------------------------------------------- -/

theorem lookupD_mem {β : Type} {l : List (String × β)} {k : String} {v : β}
    (h : lookupD l k = some v) : (k, v) ∈ l := by
  induction l with
  | nil => simp [lookupD] at h
  | cons p rest ih =>
      obtain ⟨a, b⟩ := p
      by_cases hk : a = k
      · simp only [lookupD, hk, if_pos] at h
        cases h
        subst hk
        exact List.mem_cons_self _ _
      · simp only [lookupD, hk, if_neg, if_false] at h
        exact List.mem_cons_of_mem _ (ih h)

theorem lookupD_insertD_self {β : Type} (l : List (String × β)) (k : String) (v : β) :
    lookupD (insertD l k v) k = some v := by
  induction l with
  | nil => simp [insertD, lookupD]
  | cons p rest ih =>
      by_cases hk : p.1 = k
      · simp [insertD, hk, lookupD]
      · simp [insertD, hk, lookupD, ih]

theorem mem_insertD {β : Type} {l : List (String × β)} {k : String} {v : β} {p : String × β}
    (h : p ∈ insertD l k v) : p ∈ l ∨ p = (k, v) := by
  induction l with
  | nil => simp [insertD] at h; simp [h]
  | cons q rest ih =>
      by_cases hk : q.1 = k
      · simp only [insertD, hk, if_pos] at h
        rcases List.mem_cons.1 h with h | h
        · right; exact h
        · left; exact List.mem_cons_of_mem _ h
      · simp only [insertD, hk, if_neg, if_false] at h
        rcases List.mem_cons.1 h with h | h
        · left; simp [h]
        · rcases ih h with h | h
          · left; exact List.mem_cons_of_mem _ h
          · right; exact h

theorem countP_insertD {β : Type} (l : List (String × β)) (k : String) (v : β)
    (q : String × β → Bool) :
    (insertD l k v).countP q +
      (match lookupD l k with
       | some old => if q (k, old) then 1 else 0
       | none => 0) =
    l.countP q + (if q (k, v) then 1 else 0) := by
  induction l with
  | nil => simp [insertD, lookupD, List.countP_cons]
  | cons p rest ih =>
      obtain ⟨a, b⟩ := p
      by_cases hk : a = k
      · subst hk
        simp only [insertD, if_pos, lookupD, List.countP_cons]
        omega
      · simp only [insertD, hk, if_neg, if_false, lookupD, List.countP_cons]
        omega

/- ----------------------------------------------------------------- -/
/- Stats-recompute characterisation.                                  -/
/- ----------------------------------------------------------------- -/

theorem statStep_eq (s : String → Int) (r : Record) (k : String) :
    statStep s r k = s k + (if recordBucket r = some k then 1 else 0) := by
  unfold statStep recordBucket bumpBy
  by_cases h0 : r.category_name = "null"
  · simp only [h0, if_pos]
    by_cases hk : k = "null"
    · simp [hk]
    · simp [hk, Ne.symm hk]
  · simp only [h0, if_neg, if_false]
    cases hs : r.subcategory_name with
    | none => simp
    | some sub =>
        by_cases hmem : (r.category_name ++ "_" ++ sub) ∈ statKeys
        · simp only [hmem, List.elem_eq_mem, decide_eq_true_eq, if_pos]
          by_cases hk : k = r.category_name ++ "_" ++ sub
          · simp [hk]
          · simp [hk, Ne.symm hk]
        · simp [hmem]

theorem foldl_statStep (cls : List (String × Record)) (s0 : String → Int) (k : String) :
    (cls.foldl (fun s p => statStep s p.2) s0) k =
      s0 k + (cls.countP (fun p => recordBucket p.2 == some k) : Int) := by
  induction cls generalizing s0 with
  | nil => simp
  | cons p rest ih =>
      simp only [List.foldl_cons, List.countP_cons, ih, statStep_eq]
      by_cases hb : recordBucket p.2 = some k
      · simp [hb]
        omega
      · simp [hb]

theorem loadStats_eq (cls : List (String × Record)) (k : String) :
    loadStats cls k = recomputeStats cls k := by
  unfold loadStats recomputeStats
  rw [foldl_statStep]
  simp

theorem decBucket_eq (s : String → Int) (old : Record) (k : String) :
    decBucket s old k = s k - (if recordBucket old = some k then 1 else 0) := by
  unfold decBucket recordBucket bumpBy
  by_cases h0 : old.category_name = "null"
  · simp only [h0, if_pos]
    by_cases hk : k = "null"
    · simp [hk]
      omega
    · simp [hk, Ne.symm hk]
  · simp only [h0, if_neg, if_false]
    cases hs : old.subcategory_name with
    | none => simp
    | some sub =>
        by_cases hmem : (old.category_name ++ "_" ++ sub) ∈ statKeys
        · simp only [hmem, List.elem_eq_mem, decide_eq_true_eq, if_pos]
          by_cases hk : k = old.category_name ++ "_" ++ sub
          · simp [hk]
            omega
          · simp [hk, Ne.symm hk]
        · simp [hmem]

theorem bumpBy_eq (s : String → Int) (key : String) (d : Int) (k : String) :
    bumpBy s key d k = s k + (if key = k then d else 0) := by
  unfold bumpBy
  by_cases hk : k = key
  · simp [hk]
  · simp [hk, Ne.symm hk]

/- ----------------------------------------------------------------- -/
/- Finite facts about the category and subcategory tables.            -/
/- ----------------------------------------------------------------- -/

theorem lookupD_CATEGORIES_cases {c n : String} (h : lookupD CATEGORIES c = some n) :
    (c = "0" ∧ n = "null") ∨ (c = "1" ∧ n = "forno_enchendo") ∨
    (c = "2" ∧ n = "sinterizacao_acontecendo") ∨ (c = "3" ∧ n = "despejo_acontecendo") ∨
    (c = "4" ∧ n = "panela_voltando_posicao_normal") ∨ (c = "5" ∧ n = "forno_vazio") := by
  have hm := lookupD_mem h
  simp only [CATEGORIES, List.mem_cons, List.not_mem_nil, or_false, Prod.mk.injEq] at hm
  exact hm

theorem lookupD_SUBCATEGORIES_cases {s m : String} (h : lookupD SUBCATEGORIES s = some m) :
    (s = "i" ∧ m = "inicio") ∨ (s = "m" ∧ m = "meio") ∨ (s = "f" ∧ m = "fim") := by
  have hm := lookupD_mem h
  simp only [SUBCATEGORIES, List.mem_cons, List.not_mem_nil, or_false, Prod.mk.injEq] at hm
  exact hm

theorem cat_name_null_iff {c n : String} (h : lookupD CATEGORIES c = some n) :
    n = "null" ↔ c = "0" := by
  rcases lookupD_CATEGORIES_cases h with ⟨h1, h2⟩ | ⟨h1, h2⟩ | ⟨h1, h2⟩ | ⟨h1, h2⟩ | ⟨h1, h2⟩ | ⟨h1, h2⟩ <;>
    subst h1 <;> subst h2 <;> simp

theorem cat_id_of_name {c c' n : String} (h : lookupD CATEGORIES c = some n)
    (h' : lookupD CATEGORIES c' = some n) : c = c' := by
  rcases lookupD_CATEGORIES_cases h with ⟨h1, h2⟩ | ⟨h1, h2⟩ | ⟨h1, h2⟩ | ⟨h1, h2⟩ | ⟨h1, h2⟩ | ⟨h1, h2⟩ <;>
    rcases lookupD_CATEGORIES_cases h' with ⟨g1, g2⟩ | ⟨g1, g2⟩ | ⟨g1, g2⟩ | ⟨g1, g2⟩ | ⟨g1, g2⟩ | ⟨g1, g2⟩ <;>
    simp_all

theorem sub_id_of_name {s s' m : String} (h : lookupD SUBCATEGORIES s = some m)
    (h' : lookupD SUBCATEGORIES s' = some m) : s = s' := by
  rcases lookupD_SUBCATEGORIES_cases h with ⟨h1, h2⟩ | ⟨h1, h2⟩ | ⟨h1, h2⟩ <;>
    rcases lookupD_SUBCATEGORIES_cases h' with ⟨g1, g2⟩ | ⟨g1, g2⟩ | ⟨g1, g2⟩ <;>
    simp_all

theorem key_mem_statKeys {c n s m : String} (hc : lookupD CATEGORIES c = some n)
    (h0 : c ≠ "0") (hs : lookupD SUBCATEGORIES s = some m) :
    (n ++ "_" ++ m) ∈ statKeys ∧ (n ++ "_" ++ m) ≠ "null" := by
  rcases lookupD_CATEGORIES_cases hc with ⟨h1, h2⟩ | ⟨h1, h2⟩ | ⟨h1, h2⟩ | ⟨h1, h2⟩ | ⟨h1, h2⟩ | ⟨h1, h2⟩
  · exact absurd h1 h0
  all_goals subst h2
  all_goals rcases lookupD_SUBCATEGORIES_cases hs with ⟨g1, g2⟩ | ⟨g1, g2⟩ | ⟨g1, g2⟩
  all_goals subst g2
  all_goals decide

theorem keyTable_lookup {c n s m : String} (hc : lookupD CATEGORIES c = some n)
    (h0 : c ≠ "0") (hs : lookupD SUBCATEGORIES s = some m) :
    lookupD keyTable (n ++ "_" ++ m) = some (n, m) := by
  rcases lookupD_CATEGORIES_cases hc with ⟨h1, h2⟩ | ⟨h1, h2⟩ | ⟨h1, h2⟩ | ⟨h1, h2⟩ | ⟨h1, h2⟩ | ⟨h1, h2⟩
  · exact absurd h1 h0
  all_goals subst h2
  all_goals rcases lookupD_SUBCATEGORIES_cases hs with ⟨g1, g2⟩ | ⟨g1, g2⟩ | ⟨g1, g2⟩
  all_goals subst g2
  all_goals decide

theorem key_pair_inj {c1 n1 s1 m1 c2 n2 s2 m2 : String}
    (hc1 : lookupD CATEGORIES c1 = some n1) (h01 : c1 ≠ "0")
    (hs1 : lookupD SUBCATEGORIES s1 = some m1)
    (hc2 : lookupD CATEGORIES c2 = some n2) (h02 : c2 ≠ "0")
    (hs2 : lookupD SUBCATEGORIES s2 = some m2)
    (hkey : n1 ++ "_" ++ m1 = n2 ++ "_" ++ m2) : n1 = n2 ∧ m1 = m2 := by
  have t1 := keyTable_lookup hc1 h01 hs1
  have t2 := keyTable_lookup hc2 h02 hs2
  rw [hkey, t2] at t1
  simp only [Option.some.injEq, Prod.mk.injEq] at t1
  exact ⟨t1.1.symm, t1.2.symm⟩

theorem statKeys_nodup : statKeys.Nodup := by decide

theorem null_mem_statKeys : "null" ∈ statKeys := by decide

theorem recordBucket_mem {r : Record} {k : String} (h : recordBucket r = some k) :
    k ∈ statKeys := by
  unfold recordBucket at h
  by_cases h0 : r.category_name = "null"
  · rw [if_pos h0] at h
    cases h
    exact null_mem_statKeys
  · rw [if_neg h0] at h
    cases hs : r.subcategory_name with
    | none => rw [hs] at h; cases h
    | some sub =>
        rw [hs] at h
        by_cases hmem : (r.category_name ++ "_" ++ sub) ∈ statKeys
        · simp only [hmem, List.elem_eq_mem, decide_eq_true_eq, if_pos,
            Option.some.injEq] at h
          cases h
          exact hmem
        · simp [hmem] at h

theorem wfRecord_bucket_isSome {r : Record} (h : wfRecord r = true) :
    (recordBucket r).isSome = true := by
  unfold wfRecord at h
  unfold recordBucket
  by_cases h0 : r.category_name = "null"
  · simp [h0]
  · rw [if_neg h0]
    simp only [h0, if_neg, if_false, Bool.and_eq_true, beq_iff_eq] at h
    obtain ⟨hcat, hsub⟩ := h
    cases hsid : r.subcategory_id with
    | none => rw [hsid] at hsub; cases hsn : r.subcategory_name <;> rw [hsn] at hsub <;> simp at hsub
    | some s =>
        cases hsn : r.subcategory_name with
        | none => rw [hsid, hsn] at hsub; simp at hsub
        | some n =>
            rw [hsid, hsn] at hsub
            simp only [beq_iff_eq] at hsub
            have hc0 : r.category_id ≠ "0" := by
              intro hc
              exact h0 ((cat_name_null_iff hcat).2 hc)
            have hmem := (key_mem_statKeys hcat hc0 hsub).1
            simp [hmem]

/- ----------------------------------------------------------------- -/
/- `newRecord` projections and classify-path lemmas.                  -/
/- ----------------------------------------------------------------- -/

theorem newRecord_category_name (fd f c cn : String) (sub sn : Option String) (now : String) :
    (newRecord fd f c cn sub sn now).category_name = cn := by
  unfold newRecord
  cases sub <;> cases sn <;> rfl

theorem newRecord_category_id (fd f c cn : String) (sub sn : Option String) (now : String) :
    (newRecord fd f c cn sub sn now).category_id = c := by
  unfold newRecord
  cases sub <;> cases sn <;> rfl

theorem newRecord_subcategory_name (fd f c cn : String) (sub sn : Option String) (now : String) :
    (newRecord fd f c cn sub sn now).subcategory_name =
      (match sub, sn with
       | some _, some n => some n
       | _, _ => none) := by
  unfold newRecord
  cases sub <;> cases sn <;> rfl

theorem newRecord_subcategory_id (fd f c cn : String) (sub sn : Option String) (now : String) :
    (newRecord fd f c cn sub sn now).subcategory_id =
      (match sub, sn with
       | some s, some _ => some s
       | _, _ => none) := by
  unfold newRecord
  cases sub <;> cases sn <;> rfl

theorem lookupD_CATEGORIES_zero {cn : String} (h : lookupD CATEGORIES "0" = some cn) :
    cn = "null" := by
  simp [CATEGORIES, lookupD] at h
  exact h.symm

/-- For a valid non-null classification call, the subcategory argument is a
valid key and its name is found. -/
theorem valid_sub_shape {c : String} {sub : Option String}
    (h0 : c ≠ "0") (hval : ¬(c ≠ "0" ∧ subLookup sub = none)) :
    ∃ s m, sub = some s ∧ lookupD SUBCATEGORIES s = some m ∧ subLookup sub = some m := by
  have hsub : subLookup sub ≠ none := fun hn => hval ⟨h0, hn⟩
  cases hsv : sub with
  | none => rw [hsv] at hsub; simp [subLookup] at hsub
  | some s =>
      cases hm : lookupD SUBCATEGORIES s with
      | none => rw [hsv] at hsub; simp [subLookup, hm] at hsub
      | some m =>
          refine ⟨s, m, rfl, hm, ?_⟩
          simp [subLookup, hm]

/-- The bucket of the record written by an accepted `_classify_frame` call is
exactly the stat key it increments. -/
theorem incBucket_newRecord (stats : String → Int) (fd f c cn : String)
    (sub : Option String) (now : String) (k : String)
    (hc : lookupD CATEGORIES c = some cn)
    (hval : ¬(c ≠ "0" ∧ subLookup sub = none)) :
    incBucket stats cn (subLookup sub) k =
      stats k +
        (if recordBucket (newRecord fd f c cn sub (subLookup sub) now) = some k
         then 1 else 0) := by
  by_cases h0 : c = "0"
  · subst h0
    have hcn : cn = "null" := lookupD_CATEGORIES_zero hc
    subst hcn
    unfold incBucket recordBucket
    rw [newRecord_category_name]
    rw [if_pos rfl, if_pos rfl, bumpBy_eq]
    by_cases hk : "null" = k <;> simp [hk]
  · obtain ⟨s, m, hsv, hm, hsl⟩ := valid_sub_shape h0 hval
    have hcn_ne : cn ≠ "null" := fun h => h0 ((cat_name_null_iff hc).1 h)
    have hkmem := (key_mem_statKeys hc h0 hm).1
    unfold incBucket recordBucket
    rw [newRecord_category_name, newRecord_subcategory_name]
    rw [if_neg hcn_ne, if_neg hcn_ne]
    rw [hsl, hsv]
    simp only [hkmem, List.elem_eq_mem, decide_eq_true_eq, if_pos]
    rw [bumpBy_eq]
    simp only [Option.getD_some, Option.some.injEq]

/-- Effect of a first-time dict write on the from-scratch recompute. -/
theorem recompute_insertD_none {cls : List (String × Record)} {f : String} (r : Record)
    (k : String) (hl : lookupD cls f = none) :
    recomputeStats (insertD cls f r) k
    = recomputeStats cls k + (if recordBucket r = some k then 1 else 0) := by
  unfold recomputeStats
  have h := countP_insertD cls f r (fun p => recordBucket p.2 == some k)
  rw [hl] at h
  simp only [beq_iff_eq] at h
  by_cases hr : recordBucket r = some k <;> simp [hr] at h ⊢ <;> omega

/-- Effect of an overwriting dict write on the from-scratch recompute. -/
theorem recompute_insertD_some {cls : List (String × Record)} {f : String} {old : Record}
    (r : Record) (k : String) (hl : lookupD cls f = some old) :
    recomputeStats (insertD cls f r) k + (if recordBucket old = some k then 1 else 0)
    = recomputeStats cls k + (if recordBucket r = some k then 1 else 0) := by
  unfold recomputeStats
  have h := countP_insertD cls f r (fun p => recordBucket p.2 == some k)
  rw [hl] at h
  simp only [beq_iff_eq] at h
  by_cases hb : recordBucket old = some k <;> by_cases hr : recordBucket r = some k <;>
    simp [hb, hr] at h ⊢ <;> omega

theorem sum_indicator_count (l : List String) (x : String) :
    (l.map (fun k => if x = k then (1 : Int) else 0)).sum = l.count x := by
  induction l with
  | nil => simp
  | cons a l ih =>
      simp only [List.map_cons, List.sum_cons, ih, List.count_cons, beq_iff_eq]
      by_cases hx : x = a
      · simp [hx]
        omega
      · simp [hx, Ne.symm hx]

/-- For a ledger whose records all fall in a bucket, the sum of all bucket
counts of the from-scratch recompute is the number of records. -/
theorem sum_recompute (cls : List (String × Record))
    (hb : ∀ p ∈ cls, (recordBucket p.2).isSome = true) :
    (statKeys.map (fun k => recomputeStats cls k)).sum = (cls.length : Int) := by
  induction cls with
  | nil => simp [recomputeStats]
  | cons p rest ih =>
      obtain ⟨kb, hkb⟩ := Option.isSome_iff_exists.1 (hb p (List.mem_cons_self _ _))
      have hrest := ih (fun q hq => hb q (List.mem_cons_of_mem _ hq))
      have hpoint : ∀ k, recomputeStats (p :: rest) k =
          recomputeStats rest k + (if kb = k then (1 : Int) else 0) := by
        intro k
        unfold recomputeStats
        rw [List.countP_cons]
        simp only [beq_iff_eq, hkb, Option.some.injEq]
        by_cases hk : kb = k <;> simp [hk]
      calc (statKeys.map fun k => recomputeStats (p :: rest) k).sum
          = (statKeys.map fun k =>
              recomputeStats rest k + (if kb = k then (1 : Int) else 0)).sum := by
            exact congrArg List.sum (List.map_congr_left (fun k _ => hpoint k))
        _ = (statKeys.map fun k => recomputeStats rest k).sum
            + (statKeys.map fun k => (if kb = k then (1 : Int) else 0)).sum :=
            List.sum_map_add
        _ = (rest.length : Int) + (statKeys.count kb : Int) := by
            rw [hrest, sum_indicator_count]
        _ = (rest.length : Int) + 1 := by
            rw [List.count_eq_one_of_mem statKeys_nodup (recordBucket_mem hkb)]
            simp
        _ = ((p :: rest).length : Int) := by
            simp

/- ----------------------------------------------------------------- -/
/- `classifyFrame` path characterisation.                             -/
/- ----------------------------------------------------------------- -/

theorem classifyFrame_rejected_cat {st : LedgerState} {fd f c : String}
    {sub : Option String} {now : String} (h : lookupD CATEGORIES c = none) :
    classifyFrame st fd f c sub now = (Outcome.Rejected, st) := by
  unfold classifyFrame
  rw [h]

theorem classifyFrame_rejected_sub {st : LedgerState} {fd f c cn : String}
    {sub : Option String} {now : String} (hc : lookupD CATEGORIES c = some cn)
    (h : c ≠ "0" ∧ subLookup sub = none) :
    classifyFrame st fd f c sub now = (Outcome.Rejected, st) := by
  unfold classifyFrame
  rw [hc]
  simp only [if_pos h]

theorem classifyFrame_noop {st : LedgerState} {fd f c cn : String}
    {sub : Option String} {now : String} {old : Record}
    (hc : lookupD CATEGORIES c = some cn) (hval : ¬(c ≠ "0" ∧ subLookup sub = none))
    (hold : lookupD st.classifications f = some old)
    (heq : old.category_name = cn ∧ old.subcategory_name = subLookup sub) :
    classifyFrame st fd f c sub now = (Outcome.NoOp, st) := by
  unfold classifyFrame
  rw [hc]
  simp only [if_neg hval, hold, if_pos heq]

theorem classifyFrame_applied_old {st : LedgerState} {fd f c cn : String}
    {sub : Option String} {now : String} {old : Record}
    (hc : lookupD CATEGORIES c = some cn) (hval : ¬(c ≠ "0" ∧ subLookup sub = none))
    (hold : lookupD st.classifications f = some old)
    (hne : ¬(old.category_name = cn ∧ old.subcategory_name = subLookup sub)) :
    classifyFrame st fd f c sub now =
      (Outcome.Applied,
        { classifications :=
            insertD st.classifications f (newRecord fd f c cn sub (subLookup sub) now),
          stats := incBucket (decBucket st.stats old) cn (subLookup sub) }) := by
  unfold classifyFrame
  rw [hc]
  simp only [if_neg hval, hold, if_neg hne]

theorem classifyFrame_applied_new {st : LedgerState} {fd f c cn : String}
    {sub : Option String} {now : String}
    (hc : lookupD CATEGORIES c = some cn) (hval : ¬(c ≠ "0" ∧ subLookup sub = none))
    (hold : lookupD st.classifications f = none) :
    classifyFrame st fd f c sub now =
      (Outcome.Applied,
        { classifications :=
            insertD st.classifications f (newRecord fd f c cn sub (subLookup sub) now),
          stats := incBucket st.stats cn (subLookup sub) }) := by
  unfold classifyFrame
  rw [hc]
  simp only [if_neg hval, hold]

/-- The record written by an accepted call always falls in a bucket. -/
theorem newRecord_bucket_isSome {fd f c cn : String} {sub : Option String} {now : String}
    (hc : lookupD CATEGORIES c = some cn)
    (hval : ¬(c ≠ "0" ∧ subLookup sub = none)) :
    (recordBucket (newRecord fd f c cn sub (subLookup sub) now)).isSome = true := by
  by_cases h0 : c = "0"
  · subst h0
    have hcn : cn = "null" := lookupD_CATEGORIES_zero hc
    subst hcn
    unfold recordBucket
    rw [newRecord_category_name]
    simp
  · obtain ⟨s, m, hsv, hm, hsl⟩ := valid_sub_shape h0 hval
    have hcn_ne : cn ≠ "null" := fun h => h0 ((cat_name_null_iff hc).1 h)
    have hkmem := (key_mem_statKeys hc h0 hm).1
    unfold recordBucket
    rw [newRecord_category_name, newRecord_subcategory_name]
    rw [if_neg hcn_ne]
    rw [hsl, hsv]
    simp only [hkmem, List.elem_eq_mem, decide_eq_true_eq, if_pos]
    simp

/-- The bucket of the record written by an accepted call, as a value. -/
theorem newRecord_bucket_eq {fd f c cn : String} {sub : Option String} {now : String}
    (hc : lookupD CATEGORIES c = some cn)
    (hval : ¬(c ≠ "0" ∧ subLookup sub = none)) :
    recordBucket (newRecord fd f c cn sub (subLookup sub) now) =
      (if cn = "null" then some "null"
       else some (cn ++ "_" ++ ((subLookup sub).getD "None"))) := by
  by_cases h0 : c = "0"
  · subst h0
    have hcn : cn = "null" := lookupD_CATEGORIES_zero hc
    subst hcn
    unfold recordBucket
    rw [newRecord_category_name]
    simp
  · obtain ⟨s, m, hsv, hm, hsl⟩ := valid_sub_shape h0 hval
    have hcn_ne : cn ≠ "null" := fun h => h0 ((cat_name_null_iff hc).1 h)
    have hkmem := (key_mem_statKeys hc h0 hm).1
    unfold recordBucket
    rw [newRecord_category_name, newRecord_subcategory_name]
    rw [if_neg hcn_ne, if_neg hcn_ne]
    rw [hsl, hsv]
    simp only [hkmem, List.elem_eq_mem, decide_eq_true_eq, if_pos]
    simp

/- ----------------------------------------------------------------- -/
/- Well-formed-record consequences.                                   -/
/- ----------------------------------------------------------------- -/

theorem sub_shape_of_isSome {sub : Option String} (h : (subLookup sub).isSome = true) :
    ∃ s m, sub = some s ∧ lookupD SUBCATEGORIES s = some m ∧ subLookup sub = some m := by
  cases hsv : sub with
  | none => rw [hsv] at h; simp [subLookup] at h
  | some s =>
      cases hm : lookupD SUBCATEGORIES s with
      | none => rw [hsv] at h; simp [subLookup, hm] at h
      | some m =>
          refine ⟨s, m, rfl, hm, ?_⟩
          simp [subLookup, hm]

theorem wfRecord_destruct {old : Record} (hwf : wfRecord old = true) :
    lookupD CATEGORIES old.category_id = some old.category_name ∧
    ((old.category_name = "null" ∧ old.subcategory_id = none ∧
        old.subcategory_name = none ∧ old.category_id = "0") ∨
     (old.category_name ≠ "null" ∧ old.category_id ≠ "0" ∧
        ∃ s m, old.subcategory_id = some s ∧ old.subcategory_name = some m ∧
          lookupD SUBCATEGORIES s = some m)) := by
  unfold wfRecord at hwf
  simp only [Bool.and_eq_true, beq_iff_eq] at hwf
  obtain ⟨hcat, hrest⟩ := hwf
  refine ⟨hcat, ?_⟩
  by_cases h0 : old.category_name = "null"
  · left
    rw [if_pos h0] at hrest
    simp only [Bool.and_eq_true, beq_iff_eq] at hrest
    exact ⟨h0, hrest.1, hrest.2, (cat_name_null_iff hcat).1 h0⟩
  · right
    rw [if_neg h0] at hrest
    refine ⟨h0, fun hc => h0 ((cat_name_null_iff hcat).2 hc), ?_⟩
    cases hsid : old.subcategory_id with
    | none =>
        rw [hsid] at hrest
        cases hsn : old.subcategory_name <;> rw [hsn] at hrest <;> simp at hrest
    | some s =>
        cases hsn : old.subcategory_name with
        | none => rw [hsid, hsn] at hrest; simp at hrest
        | some m =>
            rw [hsid, hsn] at hrest
            simp only [beq_iff_eq] at hrest
            exact ⟨s, m, rfl, rfl, hrest⟩

theorem wf_bucket_shape {old : Record} {kA : String} (hwf : wfRecord old = true)
    (hA : recordBucket old = some kA) :
    (old.category_name = "null" ∧ kA = "null") ∨
    (old.category_name ≠ "null" ∧ old.category_id ≠ "0" ∧
      ∃ s m, old.subcategory_id = some s ∧ old.subcategory_name = some m ∧
        lookupD SUBCATEGORIES s = some m ∧
        lookupD CATEGORIES old.category_id = some old.category_name ∧
        kA = old.category_name ++ "_" ++ m ∧ kA ≠ "null") := by
  obtain ⟨hcat, hshape⟩ := wfRecord_destruct hwf
  rcases hshape with ⟨h0, _, _, _⟩ | ⟨h0, hc0, s, m, hsid, hsn, hsm⟩
  · left
    unfold recordBucket at hA
    rw [if_pos h0] at hA
    cases hA
    exact ⟨h0, rfl⟩
  · right
    unfold recordBucket at hA
    rw [if_neg h0, hsn] at hA
    have hne := (key_mem_statKeys hcat hc0 hsm).2
    by_cases hmem : (old.category_name ++ "_" ++ m) ∈ statKeys
    · simp only [hmem, List.elem_eq_mem, decide_eq_true_eq, if_pos,
        Option.some.injEq] at hA
      exact ⟨h0, hc0, s, m, hsid, hsn, hsm, hcat, hA.symm, hA ▸ hne⟩
    · simp [hmem] at hA

/-- Under well-formedness and a valid argument pair, identical names imply
identical `(category_id, subcategory_id)` pairs. -/
theorem wf_names_eq_ids_eq {old : Record} {c cn : String} {sub : Option String}
    (hwf : wfRecord old = true)
    (hcat : lookupD CATEGORIES c = some cn)
    (hvp : validPair c sub)
    (heq : old.category_name = cn ∧ old.subcategory_name = subLookup sub) :
    (old.category_id, old.subcategory_id) = (c, sub) := by
  obtain ⟨hcatO, hshape⟩ := wfRecord_destruct hwf
  have hid : old.category_id = c := by
    apply cat_id_of_name (n := cn) _ hcat
    rw [← heq.1]
    exact hcatO
  by_cases h0 : c = "0"
  · have hsubnone : sub = none := by
      have := hvp.2
      rw [if_pos h0] at this
      exact this
    have hcn : cn = "null" := by
      subst h0
      exact lookupD_CATEGORIES_zero hcat
    have hname : old.category_name = "null" := by rw [heq.1, hcn]
    rcases hshape with ⟨_, hsid, _, _⟩ | ⟨hne, _, _⟩
    · rw [hid, hsid, hsubnone]
    · exact absurd hname hne
  · have hsome : (subLookup sub).isSome = true := by
      have := hvp.2
      rw [if_neg h0] at this
      exact this
    obtain ⟨s, m, hsv, hm, hsl⟩ := sub_shape_of_isSome hsome
    have hcn_ne : cn ≠ "null" := fun h => h0 ((cat_name_null_iff hcat).1 h)
    have hname_ne : old.category_name ≠ "null" := by rw [heq.1]; exact hcn_ne
    rcases hshape with ⟨h0', _, _, _⟩ | ⟨_, _, s', m', hsid, hsn, hsm⟩
    · exact absurd h0' hname_ne
    · have hm' : m' = m := by
        have : old.subcategory_name = some m := by rw [heq.2, hsl]
        rw [hsn] at this
        cases this
        rfl
      subst hm'
      have hs' : s' = s := sub_id_of_name hsm hm
      rw [hid, hsid, hs', hsv]

/-- C1: for every well-formed ledger whose aggregate statistics equal the
load-time recompute, the statistics equal the from-scratch recompute both at
load time (the load-time loop equals the per-bucket count) and after every
`_classify_frame` call; reclassifying a frame from its old well-formed pair
to any different valid `(category, subcategory)` pair is `Applied` and moves
exactly one count from the old bucket to the new (distinct) bucket; and the
sum of all bucket counts equals the number of classified frames before and
after the call. -/
theorem C1_stats_invariant
    (st : LedgerState) (fd f c : String) (sub : Option String) (now : String)
    (o : Outcome) (st' : LedgerState)
    (hwf : WFLedger st.classifications)
    (hstats : ∀ k, st.stats k = loadStats st.classifications k)
    (hrun : classifyFrame st fd f c sub now = (o, st')) :
    (∀ k, loadStats st.classifications k = recomputeStats st.classifications k) ∧
    (∀ k, st'.stats k = recomputeStats st'.classifications k) ∧
    totalCount st.stats = (st.classifications.length : Int) ∧
    totalCount st'.stats = (st'.classifications.length : Int) ∧
    (∀ old, lookupD st.classifications f = some old →
      validPair c sub →
      (old.category_id, old.subcategory_id) ≠ (c, sub) →
      o = Outcome.Applied ∧
      ∀ kA kB r', recordBucket old = some kA →
        lookupD st'.classifications f = some r' → recordBucket r' = some kB →
        kA ≠ kB ∧ st'.stats kA = st.stats kA - 1 ∧ st'.stats kB = st.stats kB + 1) := by
  have h1 : ∀ k, loadStats st.classifications k = recomputeStats st.classifications k :=
    fun k => loadStats_eq _ k
  have hb : ∀ p ∈ st.classifications, (recordBucket p.2).isSome = true :=
    fun p hp => wfRecord_bucket_isSome (hwf p hp)
  have hstats' : ∀ k, st.stats k = recomputeStats st.classifications k :=
    fun k => (hstats k).trans (h1 k)
  have h3 : totalCount st.stats = (st.classifications.length : Int) := by
    unfold totalCount
    rw [List.map_congr_left (fun k _ => hstats' k)]
    exact sum_recompute _ hb
  cases hcat : lookupD CATEGORIES c with
  | none =>
      have heq2 := (classifyFrame_rejected_cat hcat).symm.trans hrun
      injection heq2 with ho hst
      subst hst
      refine ⟨h1, fun k => hstats' k, h3, h3, ?_⟩
      intro old hold hvp hpairne
      exfalso
      have hv1 := hvp.1
      rw [hcat] at hv1
      exact Bool.noConfusion hv1
  | some cn =>
      by_cases hval0 : c ≠ "0" ∧ subLookup sub = none
      · have heq2 := (classifyFrame_rejected_sub hcat hval0).symm.trans hrun
        injection heq2 with ho hst
        subst hst
        refine ⟨h1, fun k => hstats' k, h3, h3, ?_⟩
        intro old hold hvp hpairne
        exfalso
        have hs := hvp.2
        rw [if_neg hval0.1] at hs
        rw [hval0.2] at hs
        exact Bool.noConfusion hs
      · cases hold : lookupD st.classifications f with
        | some old =>
            have hwfold : wfRecord old = true := hwf _ (lookupD_mem hold)
            by_cases hne : old.category_name = cn ∧ old.subcategory_name = subLookup sub
            · have heq2 := (classifyFrame_noop hcat hval0 hold hne).symm.trans hrun
              injection heq2 with ho hst
              subst hst
              refine ⟨h1, fun k => hstats' k, h3, h3, ?_⟩
              intro old' hold' hvp hpairne
              injection hold' with hold'
              subst hold'
              exact absurd (wf_names_eq_ids_eq hwfold hcat hvp hne) hpairne
            · have happ := (@classifyFrame_applied_old st fd f c cn sub now old
                  hcat hval0 hold hne).symm.trans hrun
              injection happ with ho hst
              subst hst
              have hBpoint : ∀ k,
                  incBucket (decBucket st.stats old) cn (subLookup sub) k =
                    recomputeStats
                      (insertD st.classifications f
                        (newRecord fd f c cn sub (subLookup sub) now)) k := by
                intro k
                rw [incBucket_newRecord (decBucket st.stats old) fd f c cn sub now k hcat hval0]
                rw [decBucket_eq]
                have hins := @recompute_insertD_some st.classifications f old
                  (newRecord fd f c cn sub (subLookup sub) now) k hold
                have hsk := hstats' k
                by_cases hOld : recordBucket old = some k <;>
                  by_cases hNew :
                    recordBucket (newRecord fd f c cn sub (subLookup sub) now) = some k <;>
                  simp [hOld, hNew] at hins ⊢ <;> omega
              have hb' : ∀ p ∈ insertD st.classifications f
                  (newRecord fd f c cn sub (subLookup sub) now),
                  (recordBucket p.2).isSome = true := by
                intro p hp
                rcases mem_insertD hp with hp | hp
                · exact hb p hp
                · rw [hp]
                  exact newRecord_bucket_isSome hcat hval0
              have hD : totalCount (incBucket (decBucket st.stats old) cn (subLookup sub)) =
                  ((insertD st.classifications f
                    (newRecord fd f c cn sub (subLookup sub) now)).length : Int) := by
                unfold totalCount
                rw [List.map_congr_left (fun k _ => hBpoint k)]
                exact sum_recompute _ hb'
              refine ⟨h1, hBpoint, h3, hD, ?_⟩
              intro old' hold' hvp hpairne
              injection hold' with hold'
              subst hold'
              refine ⟨ho.symm, ?_⟩
              intro kA kB r' hA hr' hB
              have hrr : r' = newRecord fd f c cn sub (subLookup sub) now := by
                rw [lookupD_insertD_self] at hr'
                injection hr' with h
                exact h.symm
              subst hrr
              have hkb := @newRecord_bucket_eq fd f c cn sub now hcat hval0
              have hkAB : kA ≠ kB := by
                by_cases h0 : c = "0"
                · have hcn : cn = "null" := by
                    subst h0
                    exact lookupD_CATEGORIES_zero hcat
                  have hkBnull : kB = "null" := by
                    rw [hkb, if_pos hcn] at hB
                    injection hB with h
                    exact h.symm
                  rcases wf_bucket_shape hwfold hA with ⟨hnameNull, hkAnull⟩ |
                    ⟨hnn, hc0O, s', m', hsid, hsn, hsm, hcatO, hkAeq, hkAnn⟩
                  · exfalso
                    apply hne
                    constructor
                    · rw [hnameNull, hcn]
                    · have hsubnone : sub = none := by
                        have hv := hvp.2
                        rw [if_pos h0] at hv
                        exact hv
                      obtain ⟨hcatO', hshape⟩ := wfRecord_destruct hwfold
                      rcases hshape with ⟨_, _, hsnone, _⟩ | ⟨hneX, _⟩
                      · rw [hsnone, hsubnone]
                        rfl
                      · exact absurd hnameNull hneX
                  · rw [hkBnull]
                    exact hkAnn
                · obtain ⟨s, m, hsv, hm, hsl⟩ := valid_sub_shape h0 hval0
                  have hcn_ne : cn ≠ "null" := fun h => h0 ((cat_name_null_iff hcat).1 h)
                  have hkBval : kB = cn ++ "_" ++ m := by
                    rw [hkb, if_neg hcn_ne, hsl] at hB
                    simp only [Option.getD_some, Option.some.injEq] at hB
                    exact hB.symm
                  rcases wf_bucket_shape hwfold hA with ⟨hnameNull, hkAnull⟩ |
                    ⟨hnn, hc0O, s', m', hsid, hsn, hsm, hcatO, hkAeq, hkAnn⟩
                  · have hnn2 := (key_mem_statKeys hcat h0 hm).2
                    rw [hkAnull, hkBval]
                    exact Ne.symm hnn2
                  · intro hcontra
                    rw [hkAeq, hkBval] at hcontra
                    obtain ⟨hn, hmm⟩ := key_pair_inj hcatO hc0O hsm hcat h0 hm hcontra
                    apply hne
                    refine ⟨hn, ?_⟩
                    rw [hsn, hmm, hsl]
              have hne2 : recordBucket (newRecord fd f c cn sub (subLookup sub) now) ≠ some kA := by
                rw [hB]
                exact fun h => (Ne.symm hkAB) (Option.some.inj h)
              have hneOld : recordBucket old ≠ some kB := by
                rw [hA]
                exact fun h => hkAB (Option.some.inj h)
              refine ⟨hkAB, ?_, ?_⟩
              · show incBucket (decBucket st.stats old) cn (subLookup sub) kA = st.stats kA - 1
                rw [incBucket_newRecord (decBucket st.stats old) fd f c cn sub now kA hcat hval0]
                rw [decBucket_eq]
                simp [hA, hne2]
              · show incBucket (decBucket st.stats old) cn (subLookup sub) kB = st.stats kB + 1
                rw [incBucket_newRecord (decBucket st.stats old) fd f c cn sub now kB hcat hval0]
                rw [decBucket_eq]
                simp [hB, hneOld]
        | none =>
            have happ := (@classifyFrame_applied_new st fd f c cn sub now
                hcat hval0 hold).symm.trans hrun
            injection happ with ho hst
            subst hst
            have hBpoint : ∀ k,
                incBucket st.stats cn (subLookup sub) k =
                  recomputeStats
                    (insertD st.classifications f
                      (newRecord fd f c cn sub (subLookup sub) now)) k := by
              intro k
              rw [incBucket_newRecord st.stats fd f c cn sub now k hcat hval0]
              have hins := recompute_insertD_none
                (newRecord fd f c cn sub (subLookup sub) now) k hold
              have hsk := hstats' k
              by_cases hNew :
                  recordBucket (newRecord fd f c cn sub (subLookup sub) now) = some k <;>
                simp [hNew] at hins ⊢ <;> omega
            have hb' : ∀ p ∈ insertD st.classifications f
                (newRecord fd f c cn sub (subLookup sub) now),
                (recordBucket p.2).isSome = true := by
              intro p hp
              rcases mem_insertD hp with hp | hp
              · exact hb p hp
              · rw [hp]
                exact newRecord_bucket_isSome hcat hval0
            have hD : totalCount (incBucket st.stats cn (subLookup sub)) =
                ((insertD st.classifications f
                  (newRecord fd f c cn sub (subLookup sub) now)).length : Int) := by
              unfold totalCount
              rw [List.map_congr_left (fun k _ => hBpoint k)]
              exact sum_recompute _ hb'
            refine ⟨h1, hBpoint, h3, hD, ?_⟩
            intro old' hold' hvp hpairne
            exact Option.noConfusion hold'

/-- Witness for C1: a concrete well-formed one-record ledger with recomputed
stats, reclassified from `("1", i)` to `("2", m)`. -/
theorem C1_stats_invariant_witness :
    WFLedger exState1.classifications ∧
    (∀ k, exState1.stats k = loadStats exState1.classifications k) ∧
    ((∀ k, loadStats exState1.classifications k = recomputeStats exState1.classifications k) ∧
     (∀ k, (classifyFrame exState1 "rtsp_test_frames" "round_1_1_5.jpg" "2" (some "m") "t1").2.stats k =
        recomputeStats
          (classifyFrame exState1 "rtsp_test_frames" "round_1_1_5.jpg" "2" (some "m") "t1").2.classifications k) ∧
     totalCount exState1.stats = (exState1.classifications.length : Int) ∧
     totalCount (classifyFrame exState1 "rtsp_test_frames" "round_1_1_5.jpg" "2" (some "m") "t1").2.stats =
       (((classifyFrame exState1 "rtsp_test_frames" "round_1_1_5.jpg" "2" (some "m") "t1").2.classifications).length : Int) ∧
     (∀ old, lookupD exState1.classifications "round_1_1_5.jpg" = some old →
        validPair "2" (some "m") →
        (old.category_id, old.subcategory_id) ≠ ("2", some "m") →
        (classifyFrame exState1 "rtsp_test_frames" "round_1_1_5.jpg" "2" (some "m") "t1").1 = Outcome.Applied ∧
        ∀ kA kB r', recordBucket old = some kA →
          lookupD (classifyFrame exState1 "rtsp_test_frames" "round_1_1_5.jpg" "2" (some "m") "t1").2.classifications
              "round_1_1_5.jpg" = some r' →
          recordBucket r' = some kB →
          kA ≠ kB ∧
          (classifyFrame exState1 "rtsp_test_frames" "round_1_1_5.jpg" "2" (some "m") "t1").2.stats kA =
            exState1.stats kA - 1 ∧
          (classifyFrame exState1 "rtsp_test_frames" "round_1_1_5.jpg" "2" (some "m") "t1").2.stats kB =
            exState1.stats kB + 1)) :=
  ⟨by unfold WFLedger; decide, fun _ => rfl,
   C1_stats_invariant exState1 "rtsp_test_frames" "round_1_1_5.jpg" "2" (some "m") "t1"
     (classifyFrame exState1 "rtsp_test_frames" "round_1_1_5.jpg" "2" (some "m") "t1").1
     (classifyFrame exState1 "rtsp_test_frames" "round_1_1_5.jpg" "2" (some "m") "t1").2
     (by unfold WFLedger; decide) (fun _ => rfl) rfl⟩

/-- C5: when the category is not in the fixed set, or the category is
non-null and the subcategory is absent or invalid, `_classify_frame` rejects
and returns the state exactly as it was: ledger and stats unchanged. -/
theorem C5_rejected_atomic
    (st : LedgerState) (fd f c : String) (sub : Option String) (now : String)
    (h : lookupD CATEGORIES c = none ∨ (c ≠ "0" ∧ subLookup sub = none)) :
    classifyFrame st fd f c sub now = (Outcome.Rejected, st) := by
  rcases h with h | h
  · exact classifyFrame_rejected_cat h
  · cases hcat : lookupD CATEGORIES c with
    | none => exact classifyFrame_rejected_cat hcat
    | some cn => exact classifyFrame_rejected_sub hcat h

/-- Witness for C5: `classify(category="3", subcategory=None)` on a concrete
non-empty ledger is rejected with the state unchanged. -/
theorem C5_rejected_atomic_witness :
    (lookupD CATEGORIES "3" = none ∨ ("3" ≠ "0" ∧ subLookup none = none)) ∧
    classifyFrame exState1 "rtsp_test_frames" "round_1_1_5.jpg" "3" none "t1" =
      (Outcome.Rejected, exState1) :=
  ⟨by decide,
   C5_rejected_atomic exState1 "rtsp_test_frames" "round_1_1_5.jpg" "3" none "t1" (by decide)⟩

/- ----------------------------------------------------------------- -/
/- Controller-step helper lemmas.                                     -/
/- ----------------------------------------------------------------- -/

/-- The record found at `f` after a validated `_classify_frame` call carries
exactly the requested `(category_name, subcategory_name)` pair. -/
theorem newRecord_subname_valid {fd f c cn : String} {sub : Option String} {now : String}
    (hvp : validPair c sub) :
    (newRecord fd f c cn sub (subLookup sub) now).subcategory_name = subLookup sub := by
  by_cases h0 : c = "0"
  · have hsubnone : sub = none := by
      have hv := hvp.2
      rw [if_pos h0] at hv
      exact hv
    subst hsubnone
    rw [newRecord_subcategory_name]
    rfl
  · have hsome : (subLookup sub).isSome = true := by
      have hv := hvp.2
      rw [if_neg h0] at hv
      exact hv
    obtain ⟨s, m, hsv, hm, hsl⟩ := sub_shape_of_isSome hsome
    subst hsv
    rw [newRecord_subcategory_name, hsl]

theorem classifyFrame_post_record
    (st : LedgerState) (fd f c : String) (sub : Option String) (now : String) {cn : String}
    (hcat : lookupD CATEGORIES c = some cn)
    (hval0 : ¬(c ≠ "0" ∧ subLookup sub = none)) (hvp : validPair c sub) :
    ∃ rec, lookupD (classifyFrame st fd f c sub now).2.classifications f = some rec ∧
      rec.category_name = cn ∧ rec.subcategory_name = subLookup sub := by
  cases hold : lookupD st.classifications f with
  | some old =>
      by_cases heq : old.category_name = cn ∧ old.subcategory_name = subLookup sub
      · rw [classifyFrame_noop hcat hval0 hold heq]
        exact ⟨old, hold, heq.1, heq.2⟩
      · rw [@classifyFrame_applied_old st fd f c cn sub now old hcat hval0 hold heq]
        refine ⟨newRecord fd f c cn sub (subLookup sub) now, ?_, ?_, ?_⟩
        · exact lookupD_insertD_self _ _ _
        · exact newRecord_category_name _ _ _ _ _ _ _
        · exact newRecord_subname_valid hvp
  | none =>
      rw [@classifyFrame_applied_new st fd f c cn sub now hcat hval0 hold]
      refine ⟨newRecord fd f c cn sub (subLookup sub) now, ?_, ?_, ?_⟩
      · exact lookupD_insertD_self _ _ _
      · exact newRecord_category_name _ _ _ _ _ _ _
      · exact newRecord_subname_valid hvp

/-- A second `_classify_frame` call with the same arguments immediately after
a first one is a NoOp that returns the state unchanged. -/
theorem classifyFrame_idem
    (st : LedgerState) (fd f c : String) (sub : Option String) (t1 t2 : String)
    (hvp : validPair c sub) :
    classifyFrame (classifyFrame st fd f c sub t1).2 fd f c sub t2 =
      (Outcome.NoOp, (classifyFrame st fd f c sub t1).2) := by
  cases hcat : lookupD CATEGORIES c with
  | none =>
      have := hvp.1
      rw [hcat] at this
      exact Bool.noConfusion this
  | some cn =>
      have hval0 : ¬(c ≠ "0" ∧ subLookup sub = none) := by
        intro ⟨h0, hn⟩
        have hv := hvp.2
        rw [if_neg h0, hn] at hv
        exact Bool.noConfusion hv
      obtain ⟨rec, hrec, hrn, hrs⟩ := classifyFrame_post_record st fd f c sub t1 hcat hval0 hvp
      exact classifyFrame_noop hcat hval0 hrec ⟨hrn, hrs⟩

theorem currentIndex_ite (c : Prop) [Decidable c] (a b : ControllerState) :
    (if c then a else b).current_index = if c then a.current_index else b.current_index :=
  apply_ite _ c a b

theorem ledger_ite (c : Prop) [Decidable c] (a b : ControllerState) :
    (if c then a else b).ledger = if c then a.ledger else b.ledger :=
  apply_ite _ c a b

/-- Cursor behaviour of a `classifyKey` event in Browsing: the cursor moves
to `idx + 1` exactly when the classify call applied, the frame had no prior
record, and the cursor was not already on the last frame; in every other
case it is unchanged.  When no classify call is made, the ledger is
untouched as well. -/
theorem step_classifyKey_index
    (fd : String) (frames : List String) (cst : ControllerState) (c now : String)
    (hc : (lookupD CATEGORIES c).isSome = true)
    (hh : cst.show_help = false) (hs : cst.show_stats = false)
    (hlo : 0 ≤ cst.current_index) (hhi : cst.current_index < (frames.length : Int)) :
    (step fd frames cst (Event.classifyKey c) now).current_index =
      (if classifyCallOutcome fd frames cst c now = some Outcome.Applied ∧
          lookupD cst.ledger.classifications (frames.getD cst.current_index.toNat "") = none ∧
          cst.current_index < (frames.length : Int) - 1
       then cst.current_index + 1 else cst.current_index) ∧
    (classifyCallOutcome fd frames cst c now = none →
      (step fd frames cst (Event.classifyKey c) now).ledger = cst.ledger) := by
  by_cases h0 : c = "0"
  · subst h0
    cases hwo : lookupD cst.ledger.classifications (frames.getD cst.current_index.toNat "") with
    | none =>
        by_cases hap :
            (classifyFrame cst.ledger fd (frames.getD cst.current_index.toNat "") "0" none now).1 =
              Outcome.Applied
        · constructor
          · simp only [List.getD_eq_getElem?_getD] at hwo hap
            simp [step, stepBody, classifyCallOutcome, hc, hh, hs, hwo, hap, currentIndex_ite, ledger_ite]
            first
              | omega
              | (intro h2; omega)
              | (split <;> split <;> omega)
              | (split <;> omega)
          · intro h
            simp [classifyCallOutcome, hc, hh, hs] at h
        · constructor
          · simp only [List.getD_eq_getElem?_getD] at hwo hap
            simp [step, stepBody, classifyCallOutcome, hc, hh, hs, hwo, hap, currentIndex_ite, ledger_ite]
            first
              | omega
              | (intro h2; omega)
              | (split <;> omega)
          · intro h
            simp [classifyCallOutcome, hc, hh, hs] at h
    | some oldrec =>
        by_cases hap :
            (classifyFrame cst.ledger fd (frames.getD cst.current_index.toNat "") "0" none now).1 =
              Outcome.Applied
        · constructor
          · simp only [List.getD_eq_getElem?_getD] at hwo hap
            simp [step, stepBody, classifyCallOutcome, hc, hh, hs, hwo, hap, currentIndex_ite, ledger_ite]
            first
              | omega
              | (intro h2; omega)
              | (split <;> omega)
          · intro h
            simp [classifyCallOutcome, hc, hh, hs] at h
        · constructor
          · simp only [List.getD_eq_getElem?_getD] at hwo hap
            simp [step, stepBody, classifyCallOutcome, hc, hh, hs, hwo, hap, currentIndex_ite, ledger_ite]
            first
              | omega
              | (intro h2; omega)
              | (split <;> omega)
          · intro h
            simp [classifyCallOutcome, hc, hh, hs] at h
  · cases hsubc : cst.current_subcategory with
    | none =>
        constructor
        · simp [step, stepBody, classifyCallOutcome, hc, hh, hs, h0, hsubc, currentIndex_ite, ledger_ite]
          first
            | omega
            | (intro h2; omega)
            | (split <;> omega)
        · intro _
          simp [step, stepBody, hc, hh, hs, h0, hsubc, currentIndex_ite, ledger_ite]
    | some sub =>
        cases hwo : lookupD cst.ledger.classifications (frames.getD cst.current_index.toNat "") with
        | none =>
            by_cases hap :
                (classifyFrame cst.ledger fd (frames.getD cst.current_index.toNat "") c (some sub) now).1 =
                  Outcome.Applied
            · constructor
              · simp only [List.getD_eq_getElem?_getD] at hwo hap
                simp [step, stepBody, classifyCallOutcome, hc, hh, hs, h0, hsubc, hwo, hap, currentIndex_ite, ledger_ite]
                first
              | omega
              | (intro h2; omega)
              | (split <;> split <;> omega)
              | (split <;> omega)
              · intro h
                simp [classifyCallOutcome, hc, hh, hs, h0, hsubc] at h
            · constructor
              · simp only [List.getD_eq_getElem?_getD] at hwo hap
                simp [step, stepBody, classifyCallOutcome, hc, hh, hs, h0, hsubc, hwo, hap, currentIndex_ite, ledger_ite]
                first
              | omega
              | (intro h2; omega)
              | (split <;> omega)
              · intro h
                simp [classifyCallOutcome, hc, hh, hs, h0, hsubc] at h
        | some oldrec =>
            by_cases hap :
                (classifyFrame cst.ledger fd (frames.getD cst.current_index.toNat "") c (some sub) now).1 =
                  Outcome.Applied
            · constructor
              · simp only [List.getD_eq_getElem?_getD] at hwo hap
                simp [step, stepBody, classifyCallOutcome, hc, hh, hs, h0, hsubc, hwo, hap, currentIndex_ite, ledger_ite]
                first
              | omega
              | (intro h2; omega)
              | (split <;> omega)
              · intro h
                simp [classifyCallOutcome, hc, hh, hs, h0, hsubc] at h
            · constructor
              · simp only [List.getD_eq_getElem?_getD] at hwo hap
                simp [step, stepBody, classifyCallOutcome, hc, hh, hs, h0, hsubc, hwo, hap, currentIndex_ite, ledger_ite]
                first
              | omega
              | (intro h2; omega)
              | (split <;> omega)
              · intro h
                simp [classifyCallOutcome, hc, hh, hs, h0, hsubc] at h

/-- C4: for every valid argument pair (a non-null category with a valid
subcategory, or the null category with no subcategory), calling classify and
then immediately calling classify again with identical arguments yields NoOp
on the second call, with the ledger state (records including timestamps, and
stats) exactly as after the first call; and a controller hosting that ledger
does not advance its cursor when the identical classify event is replayed. -/
theorem C4_classify_idempotent
    (st : LedgerState) (fd f c : String) (sub : Option String) (t1 t2 : String)
    (hvp : validPair c sub)
    (o1 : Outcome) (st1 : LedgerState) (h1 : classifyFrame st fd f c sub t1 = (o1, st1))
    (o2 : Outcome) (st2 : LedgerState) (h2 : classifyFrame st1 fd f c sub t2 = (o2, st2)) :
    o2 = Outcome.NoOp ∧ st2 = st1 ∧
    (∀ (frames : List String) (cst : ControllerState) (now : String),
      cst.ledger = st1 →
      cst.show_help = false → cst.show_stats = false →
      frames.getD cst.current_index.toNat "" = f →
      (c = "0" ∨ cst.current_subcategory = sub) →
      0 ≤ cst.current_index → cst.current_index < (frames.length : Int) →
      (step fd frames cst (Event.classifyKey c) now).current_index = cst.current_index) := by
  have hs1 : (classifyFrame st fd f c sub t1).2 = st1 := by rw [h1]
  have hidem : ∀ t : String, classifyFrame st1 fd f c sub t = (Outcome.NoOp, st1) := by
    intro t
    have h := classifyFrame_idem st fd f c sub t1 t hvp
    rw [hs1] at h
    exact h
  have h2' := (hidem t2).symm.trans h2
  injection h2' with ho hst
  refine ⟨ho.symm, hst.symm, ?_⟩
  intro frames cst now hled hh hsv hframe hpend hlo hhi
  have hc : (lookupD CATEGORIES c).isSome = true := hvp.1
  obtain ⟨hidx, _⟩ := step_classifyKey_index fd frames cst c now hc hh hsv hlo hhi
  have houtc : classifyCallOutcome fd frames cst c now = some Outcome.NoOp := by
    unfold classifyCallOutcome
    simp only [hc, hh, hsv, Bool.not_false, Bool.and_self, if_true, hframe, hled]
    by_cases h0 : c = "0"
    · have hsubn : sub = none := by
        have hv := hvp.2
        rw [if_pos h0] at hv
        exact hv
      rw [if_pos h0, h0]
      have hcall := hidem now
      rw [h0, hsubn] at hcall
      rw [hcall]
    · rw [if_neg h0]
      have hsome : (subLookup sub).isSome = true := by
        have hv := hvp.2
        rw [if_neg h0] at hv
        exact hv
      obtain ⟨s, m, hsv2, _, _⟩ := sub_shape_of_isSome hsome
      rcases hpend with h0' | hpendv
      · exact absurd h0' h0
      · rw [hpendv, hsv2]
        show some (classifyFrame st1 fd f c (some s) now).1 = some Outcome.NoOp
        have hcall := hidem now
        rw [hsv2] at hcall
        rw [hcall]
  rw [hidx]
  rw [if_neg]
  intro hcond
  rw [houtc] at hcond
  exact Outcome.noConfusion (Option.some.inj hcond.1)

/-- Witness for C4: classifying the concrete one-record ledger as
`("2", subcategory m)` twice with identical arguments. -/
theorem C4_classify_idempotent_witness :
    validPair "2" (some "m") ∧
    ((classifyFrame
        (classifyFrame exState1 "rtsp_test_frames" "round_1_1_5.jpg" "2" (some "m") "t1").2
        "rtsp_test_frames" "round_1_1_5.jpg" "2" (some "m") "t2").1 = Outcome.NoOp ∧
     (classifyFrame
        (classifyFrame exState1 "rtsp_test_frames" "round_1_1_5.jpg" "2" (some "m") "t1").2
        "rtsp_test_frames" "round_1_1_5.jpg" "2" (some "m") "t2").2 =
       (classifyFrame exState1 "rtsp_test_frames" "round_1_1_5.jpg" "2" (some "m") "t1").2 ∧
     (∀ (frames : List String) (cst : ControllerState) (now : String),
        cst.ledger = (classifyFrame exState1 "rtsp_test_frames" "round_1_1_5.jpg" "2" (some "m") "t1").2 →
        cst.show_help = false → cst.show_stats = false →
        frames.getD cst.current_index.toNat "" = "round_1_1_5.jpg" →
        ("2" = "0" ∨ cst.current_subcategory = some "m") →
        0 ≤ cst.current_index → cst.current_index < (frames.length : Int) →
        (step "rtsp_test_frames" frames cst (Event.classifyKey "2") now).current_index =
          cst.current_index)) :=
  ⟨by unfold validPair; decide,
   C4_classify_idempotent exState1 "rtsp_test_frames" "round_1_1_5.jpg" "2" (some "m") "t1" "t2"
     (by unfold validPair; decide)
     (classifyFrame exState1 "rtsp_test_frames" "round_1_1_5.jpg" "2" (some "m") "t1").1
     (classifyFrame exState1 "rtsp_test_frames" "round_1_1_5.jpg" "2" (some "m") "t1").2 rfl
     (classifyFrame
        (classifyFrame exState1 "rtsp_test_frames" "round_1_1_5.jpg" "2" (some "m") "t1").2
        "rtsp_test_frames" "round_1_1_5.jpg" "2" (some "m") "t2").1
     (classifyFrame
        (classifyFrame exState1 "rtsp_test_frames" "round_1_1_5.jpg" "2" (some "m") "t1").2
        "rtsp_test_frames" "round_1_1_5.jpg" "2" (some "m") "t2").2 rfl⟩

/-- C6 counterexample: with a one-frame inventory, an empty ledger and the
cursor on frame 0 (the last frame), a `Classify("0")` event has outcome
`Applied` on a frame with no prior record, yet the cursor does not advance
(the end-of-iteration clamp pulls it back): the claimed "advances by exactly
1 iff Applied and first-time" equivalence is false at this input. -/
theorem C6_counterexample :
    classifyCallOutcome "d" ["round_1_1_5.jpg"]
        ⟨0, false, false, none, ⟨[], fun _ => 0⟩⟩ "0" "t" = some Outcome.Applied ∧
    lookupD (⟨[], fun _ => 0⟩ : LedgerState).classifications "round_1_1_5.jpg" = none ∧
    ¬ ((step "d" ["round_1_1_5.jpg"] ⟨0, false, false, none, ⟨[], fun _ => 0⟩⟩
          (Event.classifyKey "0") "t").current_index = 0 + 1) ∧
    (step "d" ["round_1_1_5.jpg"] ⟨0, false, false, none, ⟨[], fun _ => 0⟩⟩
        (Event.classifyKey "0") "t").current_index = 0 := by
  refine ⟨by decide, by decide, by decide, by decide⟩

/-- C6 (amended): in Browsing with a valid in-range cursor and a category
key, the cursor moves to `idx + 1` iff the ledger call applied, the frame
had no prior record, and the cursor was not already on the last frame
(at the last frame the end-of-iteration clamp keeps it there); in every
other case — reclassification, Rejected, NoOp, or a non-null category with
no pending subcategory — the cursor is unchanged; and when no ledger call
is made (no pending subcategory armed) the ledger is untouched. -/
theorem C6_classify_cursor_amended
    (fd : String) (frames : List String) (cst : ControllerState) (c now : String)
    (hc : (lookupD CATEGORIES c).isSome = true)
    (hh : cst.show_help = false) (hs : cst.show_stats = false)
    (hlo : 0 ≤ cst.current_index) (hhi : cst.current_index < (frames.length : Int)) :
    ((step fd frames cst (Event.classifyKey c) now).current_index = cst.current_index + 1 ↔
      (classifyCallOutcome fd frames cst c now = some Outcome.Applied ∧
       lookupD cst.ledger.classifications (frames.getD cst.current_index.toNat "") = none ∧
       cst.current_index < (frames.length : Int) - 1)) ∧
    ((step fd frames cst (Event.classifyKey c) now).current_index ≠ cst.current_index + 1 →
      (step fd frames cst (Event.classifyKey c) now).current_index = cst.current_index) ∧
    (classifyCallOutcome fd frames cst c now = none →
      (step fd frames cst (Event.classifyKey c) now).ledger = cst.ledger) := by
  obtain ⟨hidx, hled⟩ := step_classifyKey_index fd frames cst c now hc hh hs hlo hhi
  refine ⟨?_, ?_, hled⟩
  · rw [hidx]
    by_cases hcond : classifyCallOutcome fd frames cst c now = some Outcome.Applied ∧
        lookupD cst.ledger.classifications (frames.getD cst.current_index.toNat "") = none ∧
        cst.current_index < (frames.length : Int) - 1
    · simp [hcond]
    · simp [hcond]
      omega
  · rw [hidx]
    by_cases hcond : classifyCallOutcome fd frames cst c now = some Outcome.Applied ∧
        lookupD cst.ledger.classifications (frames.getD cst.current_index.toNat "") = none ∧
        cst.current_index < (frames.length : Int) - 1
    · simp [hcond]
    · simp [hcond]

/-- Witness for the amended C6: a two-frame inventory, empty ledger, cursor
on frame 0, classify key `0`. -/
theorem C6_classify_cursor_amended_witness :
    (lookupD CATEGORIES "0").isSome = true ∧
    ((step "d" ["round_1_1_5.jpg", "round_1_2_6.jpg"]
          ⟨0, false, false, none, ⟨[], fun _ => 0⟩⟩ (Event.classifyKey "0") "t").current_index =
        (⟨0, false, false, none, ⟨[], fun _ => 0⟩⟩ : ControllerState).current_index + 1 ↔
      (classifyCallOutcome "d" ["round_1_1_5.jpg", "round_1_2_6.jpg"]
          ⟨0, false, false, none, ⟨[], fun _ => 0⟩⟩ "0" "t" = some Outcome.Applied ∧
       lookupD (⟨0, false, false, none, ⟨[], fun _ => 0⟩⟩ : ControllerState).ledger.classifications
          (["round_1_1_5.jpg", "round_1_2_6.jpg"].getD
            (⟨0, false, false, none, ⟨[], fun _ => 0⟩⟩ : ControllerState).current_index.toNat "") = none ∧
       (⟨0, false, false, none, ⟨[], fun _ => 0⟩⟩ : ControllerState).current_index <
         ((["round_1_1_5.jpg", "round_1_2_6.jpg"].length : Int)) - 1)) ∧
    ((step "d" ["round_1_1_5.jpg", "round_1_2_6.jpg"]
          ⟨0, false, false, none, ⟨[], fun _ => 0⟩⟩ (Event.classifyKey "0") "t").current_index ≠
        (⟨0, false, false, none, ⟨[], fun _ => 0⟩⟩ : ControllerState).current_index + 1 →
      (step "d" ["round_1_1_5.jpg", "round_1_2_6.jpg"]
          ⟨0, false, false, none, ⟨[], fun _ => 0⟩⟩ (Event.classifyKey "0") "t").current_index =
        (⟨0, false, false, none, ⟨[], fun _ => 0⟩⟩ : ControllerState).current_index) ∧
    (classifyCallOutcome "d" ["round_1_1_5.jpg", "round_1_2_6.jpg"]
        ⟨0, false, false, none, ⟨[], fun _ => 0⟩⟩ "0" "t" = none →
      (step "d" ["round_1_1_5.jpg", "round_1_2_6.jpg"]
          ⟨0, false, false, none, ⟨[], fun _ => 0⟩⟩ (Event.classifyKey "0") "t").ledger =
        (⟨0, false, false, none, ⟨[], fun _ => 0⟩⟩ : ControllerState).ledger) :=
  ⟨by decide,
   C6_classify_cursor_amended "d" ["round_1_1_5.jpg", "round_1_2_6.jpg"]
     ⟨0, false, false, none, ⟨[], fun _ => 0⟩⟩ "0" "t" (by decide) rfl rfl (by decide) (by decide)⟩

/-- A classify call dispatched the way the controller dispatches it (null
category always with no subcategory argument) preserves the null-no-sub
invariant. -/
theorem classifyFrame_preserves_nullNoSub
    (led : LedgerState) (fd f c : String) (sub : Option String) (now : String)
    (hinv : NullNoSub led.classifications)
    (hdisp : (c = "0" ∧ sub = none) ∨ c ≠ "0") :
    NullNoSub (classifyFrame led fd f c sub now).2.classifications := by
  cases hcat : lookupD CATEGORIES c with
  | none =>
      rw [classifyFrame_rejected_cat hcat]
      exact hinv
  | some cn =>
      by_cases hval0 : c ≠ "0" ∧ subLookup sub = none
      · rw [classifyFrame_rejected_sub hcat hval0]
        exact hinv
      · have hnewOK : ∀ q ∈ [(f, newRecord fd f c cn sub (subLookup sub) now)],
            True := fun _ _ => trivial
        have hrec : (newRecord fd f c cn sub (subLookup sub) now).category_name = "null" →
            (newRecord fd f c cn sub (subLookup sub) now).subcategory_id = none ∧
            (newRecord fd f c cn sub (subLookup sub) now).subcategory_name = none := by
          intro hnull
          rw [newRecord_category_name] at hnull
          rcases hdisp with ⟨h0, hsubn⟩ | h0
          · subst hsubn
            rw [newRecord_subcategory_id, newRecord_subcategory_name]
            exact ⟨rfl, rfl⟩
          · exact absurd ((cat_name_null_iff hcat).1 hnull) h0
        cases hold : lookupD led.classifications f with
        | some old =>
            by_cases heq : old.category_name = cn ∧ old.subcategory_name = subLookup sub
            · rw [classifyFrame_noop hcat hval0 hold heq]
              exact hinv
            · rw [@classifyFrame_applied_old led fd f c cn sub now old hcat hval0 hold heq]
              intro p hp hnull
              rcases mem_insertD hp with hp | hp
              · exact hinv p hp hnull
              · subst hp
                exact hrec hnull
        | none =>
            rw [@classifyFrame_applied_new led fd f c cn sub now hcat hval0 hold]
            intro p hp hnull
            rcases mem_insertD hp with hp | hp
            · exact hinv p hp hnull
            · subst hp
              exact hrec hnull

/-- Every controller step either leaves the ledger untouched or replaces it
by the result of a classify call dispatched with the controller's argument
discipline (null category with no subcategory, other categories with the
armed subcategory). -/
theorem step_ledger_cases (fd : String) (frames : List String) (cst : ControllerState)
    (e : Event) (now : String) :
    (step fd frames cst e now).ledger = cst.ledger ∨
    ∃ c sub, ((c = "0" ∧ sub = none) ∨ c ≠ "0") ∧
      (step fd frames cst e now).ledger =
        (classifyFrame cst.ledger fd (frames.getD cst.current_index.toNat "") c sub now).2 := by
  cases e with
  | classifyKey c =>
      by_cases hcv : (lookupD CATEGORIES c).isSome = true
      · by_cases hh : cst.show_help = false
        · by_cases hs : cst.show_stats = false
          · by_cases h0 : c = "0"
            · right
              refine ⟨"0", none, Or.inl ⟨rfl, rfl⟩, ?_⟩
              subst h0
              simp only [step, stepBody, hcv, hh, hs, Bool.not_false, Bool.and_self,
                if_true, ledger_ite, currentIndex_ite]
              try ((repeat' split) <;> rfl)
            · cases hsubc : cst.current_subcategory with
              | none =>
                  left
                  simp only [step, stepBody, hcv, hh, hs, Bool.not_false, Bool.and_self,
                    if_true, if_neg h0, hsubc, ledger_ite, ite_self]
                  try split <;> rfl
              | some s =>
                  right
                  refine ⟨c, some s, Or.inr h0, ?_⟩
                  simp only [step, stepBody, hcv, hh, hs, Bool.not_false, Bool.and_self,
                    if_true, if_neg h0, hsubc, ledger_ite, ite_self]
                  try ((repeat' split) <;> rfl)
          · left
            have hs' : cst.show_stats = true := by
              cases hx : cst.show_stats
              · exact absurd hx hs
              · rfl
            simp only [step, stepBody, hcv, hs', Bool.not_true, Bool.and_false,
              Bool.false_eq_true, if_false, ledger_ite, ite_self]
            try split <;> rfl
        · left
          have hh' : cst.show_help = true := by
            cases hx : cst.show_help
            · exact absurd hx hh
            · rfl
          simp only [step, stepBody, hcv, hh', Bool.not_true, Bool.false_and,
            Bool.false_eq_true, if_false, ledger_ite, ite_self]
          try split <;> rfl
      · left
        simp only [step, stepBody, hcv, Bool.false_eq_true, if_false, ledger_ite, ite_self]
        try split <;> rfl
  | toggleHelp =>
      left
      simp only [step, stepBody, ledger_ite, ite_self]
      try split <;> rfl
  | toggleStats =>
      left
      simp only [step, stepBody, ledger_ite, ite_self]
      try split <;> rfl
  | selectSubcat s =>
      left
      simp only [step, stepBody, ledger_ite, ite_self]
      try split <;> rfl
  | navNext =>
      left
      simp only [step, stepBody, ledger_ite, ite_self]
      try split <;> rfl
  | navPrev =>
      left
      simp only [step, stepBody, ledger_ite, ite_self]
      try split <;> rfl
  | jump10 =>
      left
      simp only [step, stepBody, ledger_ite, ite_self]
      try split <;> rfl
  | jump100 =>
      left
      simp only [step, stepBody, ledger_ite, ite_self]
      try split <;> rfl
  | jump1000 =>
      left
      simp only [step, stepBody, ledger_ite, ite_self]
      try split <;> rfl
  | unknownKey =>
      left
      simp only [step, stepBody, ledger_ite, ite_self]
      try split <;> rfl

/-- C3: a classify call for the "no event" category (`'0'`), as the
controller issues it (with no subcategory argument, regardless of any armed
pending subcategory), stores a record carrying neither `subcategory_id` nor
`subcategory_name`; and every controller event preserves the invariant that
a null record never carries a subcategory. -/
theorem C3_null_never_carries_subcategory :
    (∀ (led : LedgerState) (fd f now : String) (o : Outcome) (led' : LedgerState),
       classifyFrame led fd f "0" none now = (o, led') →
       o = Outcome.Applied →
       ∀ r', lookupD led'.classifications f = some r' →
         r'.subcategory_id = none ∧ r'.subcategory_name = none) ∧
    (∀ (fd : String) (frames : List String) (cst : ControllerState) (e : Event) (now : String),
       NullNoSub cst.ledger.classifications →
       NullNoSub (step fd frames cst e now).ledger.classifications) := by
  constructor
  · intro led fd f now o led' hrun happ
    subst happ
    have hcat : lookupD CATEGORIES "0" = some "null" := rfl
    have hval0 : ¬("0" ≠ "0" ∧ subLookup (none : Option String) = none) := by
      intro h
      exact h.1 rfl
    have hsubl : subLookup (none : Option String) = none := rfl
    cases hold : lookupD led.classifications f with
    | some old =>
        by_cases heq : old.category_name = "null" ∧ old.subcategory_name = subLookup none
        · have := (classifyFrame_noop hcat hval0 hold heq).symm.trans hrun
          injection this with ho hst
          exact absurd ho (by intro h; exact Outcome.noConfusion h)
        · have := (@classifyFrame_applied_old led fd f "0" "null" none now old
            hcat hval0 hold heq).symm.trans hrun
          injection this with ho hst
          subst hst
          intro r' hr'
          rw [lookupD_insertD_self] at hr'
          injection hr' with hr'
          subst hr'
          rw [newRecord_subcategory_id, newRecord_subcategory_name]
          exact ⟨rfl, rfl⟩
    | none =>
        have := (@classifyFrame_applied_new led fd f "0" "null" none now
          hcat hval0 hold).symm.trans hrun
        injection this with ho hst
        subst hst
        intro r' hr'
        rw [lookupD_insertD_self] at hr'
        injection hr' with hr'
        subst hr'
        rw [newRecord_subcategory_id, newRecord_subcategory_name]
        exact ⟨rfl, rfl⟩
  · intro fd frames cst e now hinv
    rcases step_ledger_cases fd frames cst e now with h | ⟨c, sub, hdisp, h⟩
    · rw [h]
      exact hinv
    · rw [h]
      exact classifyFrame_preserves_nullNoSub cst.ledger fd
        (frames.getD cst.current_index.toNat "") c sub now hinv hdisp

/-- Witness for C3: classifying a fresh frame as `'0'` on the empty ledger
stores a record with no subcategory fields, and the invariant is preserved
by a concrete step with a pending subcategory armed. -/
theorem C3_null_never_carries_subcategory_witness :
    ((classifyFrame ⟨[], fun _ => 0⟩ "d" "round_1_1_5.jpg" "0" none "t").1 = Outcome.Applied →
      ∀ r', lookupD (classifyFrame ⟨[], fun _ => 0⟩ "d" "round_1_1_5.jpg" "0" none "t").2.classifications
          "round_1_1_5.jpg" = some r' →
        r'.subcategory_id = none ∧ r'.subcategory_name = none) ∧
    (NullNoSub (⟨0, false, false, some "i", ⟨[], fun _ => 0⟩⟩ : ControllerState).ledger.classifications →
      NullNoSub (step "d" ["round_1_1_5.jpg"] ⟨0, false, false, some "i", ⟨[], fun _ => 0⟩⟩
          (Event.classifyKey "0") "t").ledger.classifications) :=
  ⟨C3_null_never_carries_subcategory.1 ⟨[], fun _ => 0⟩ "d" "round_1_1_5.jpg" "t"
     (classifyFrame ⟨[], fun _ => 0⟩ "d" "round_1_1_5.jpg" "0" none "t").1
     (classifyFrame ⟨[], fun _ => 0⟩ "d" "round_1_1_5.jpg" "0" none "t").2 rfl,
   C3_null_never_carries_subcategory.2 "d" ["round_1_1_5.jpg"]
     ⟨0, false, false, some "i", ⟨[], fun _ => 0⟩⟩ (Event.classifyKey "0") "t"⟩

theorem subcat_ite (c : Prop) [Decidable c] (a b : ControllerState) :
    (if c then a else b).current_subcategory =
      if c then a.current_subcategory else b.current_subcategory :=
  apply_ite _ c a b

/-- The dispatch phase of one loop iteration never drives the cursor below
zero (before the end-of-iteration clamp). -/
theorem stepBody_index_lb (fd : String) (frames : List String) (cst : ControllerState)
    (e : Event) (now : String)
    (hlo : 0 ≤ cst.current_index) (hhi : cst.current_index < (frames.length : Int)) :
    0 ≤ (stepBody fd frames cst e now).current_index := by
  cases e with
  | classifyKey c =>
      cases hsubc : cst.current_subcategory <;>
        simp only [stepBody, hsubc, currentIndex_ite] <;>
        (repeat' split) <;> omega
  | toggleHelp => simp only [stepBody]; omega
  | toggleStats => simp only [stepBody]; omega
  | selectSubcat s => simp only [stepBody]; omega
  | navNext => simp only [stepBody]; omega
  | navPrev =>
      simp only [stepBody]
      split <;> omega
  | jump10 => simp only [stepBody]; omega
  | jump100 => simp only [stepBody]; omega
  | jump1000 => simp only [stepBody]; omega
  | unknownKey => simp only [stepBody]; omega

/-- C8: for a non-empty inventory and a cursor within `[0, n-1]`, the cursor
after processing any event (navigation, jumps, classify-induced advance, or
anything else) is again within `[0, n-1]`. -/
theorem C8_cursor_in_bounds
    (fd : String) (frames : List String) (cst : ControllerState) (e : Event) (now : String)
    (hlo : 0 ≤ cst.current_index) (hhi : cst.current_index < (frames.length : Int)) :
    0 ≤ (step fd frames cst e now).current_index ∧
    (step fd frames cst e now).current_index < (frames.length : Int) := by
  have hlb := stepBody_index_lb fd frames cst e now hlo hhi
  unfold step
  by_cases hcl : (stepBody fd frames cst e now).current_index ≥ (frames.length : Int)
  · rw [if_pos hcl]
    constructor <;> simp <;> omega
  · rw [if_neg hcl]
    omega

/-- Witness for C8: a jump of 1000 on a one-frame inventory stays at frame 0. -/
theorem C8_cursor_in_bounds_witness :
    (0 : Int) ≤ 0 ∧ (0 : Int) < ((["round_1_1_5.jpg"].length : Nat) : Int) ∧
    (0 ≤ (step "d" ["round_1_1_5.jpg"] ⟨0, false, false, none, ⟨[], fun _ => 0⟩⟩
        Event.jump1000 "t").current_index ∧
     (step "d" ["round_1_1_5.jpg"] ⟨0, false, false, none, ⟨[], fun _ => 0⟩⟩
        Event.jump1000 "t").current_index < ((["round_1_1_5.jpg"].length : Nat) : Int)) :=
  ⟨by decide, by decide,
   C8_cursor_in_bounds "d" ["round_1_1_5.jpg"] ⟨0, false, false, none, ⟨[], fun _ => 0⟩⟩
     Event.jump1000 "t" (by decide) (by decide)⟩

/-- C10: while the help or the stats overlay is active, a subcategory
selection key is still processed and sets the pending subcategory to the
selected value, whereas category-key classify events are suppressed (the
ledger is untouched). -/
theorem C10_subcat_selection_under_overlay
    (fd : String) (frames : List String) (cst : ControllerState) (s : SubKey) (now : String)
    (hov : cst.show_help = true ∨ cst.show_stats = true) :
    (step fd frames cst (Event.selectSubcat s) now).current_subcategory = some (subKeyId s) ∧
    (∀ c, (step fd frames cst (Event.classifyKey c) now).ledger = cst.ledger) := by
  constructor
  · simp only [step, stepBody, subcat_ite, ite_self]
  · intro c
    have hno : (!cst.show_help && !cst.show_stats) = false := by
      rcases hov with h | h <;> rw [h] <;> simp
    by_cases hcv : (lookupD CATEGORIES c).isSome = true
    · simp only [step, stepBody, hcv, if_true, hno, Bool.false_eq_true, if_false,
        ledger_ite, ite_self]
    · simp only [step, stepBody, hcv, Bool.false_eq_true, if_false, ledger_ite, ite_self]

/-- Witness for C10: with the help overlay active and subcategory key `m`,
the pending subcategory is set and a classify key leaves the ledger alone. -/
theorem C10_subcat_selection_under_overlay_witness :
    ((⟨0, true, false, none, ⟨[], fun _ => 0⟩⟩ : ControllerState).show_help = true ∨
     (⟨0, true, false, none, ⟨[], fun _ => 0⟩⟩ : ControllerState).show_stats = true) ∧
    ((step "d" ["round_1_1_5.jpg"] ⟨0, true, false, none, ⟨[], fun _ => 0⟩⟩
        (Event.selectSubcat SubKey.m) "t").current_subcategory = some (subKeyId SubKey.m) ∧
     (∀ c, (step "d" ["round_1_1_5.jpg"] ⟨0, true, false, none, ⟨[], fun _ => 0⟩⟩
        (Event.classifyKey c) "t").ledger =
          (⟨0, true, false, none, ⟨[], fun _ => 0⟩⟩ : ControllerState).ledger)) :=
  ⟨Or.inl rfl,
   C10_subcat_selection_under_overlay "d" ["round_1_1_5.jpg"]
     ⟨0, true, false, none, ⟨[], fun _ => 0⟩⟩ SubKey.m "t" (Or.inl rfl)⟩

/- ----------------------------------------------------------------- -/
/- C2: round-id reconciliation.                                       -/
/- ----------------------------------------------------------------- -/

theorem foldl_roundAcc_ge_acc (files : List String) (acc : Int) :
    acc ≤ files.foldl roundAcc acc := by
  induction files generalizing acc with
  | nil => simp
  | cons f rest ih =>
      simp only [List.foldl_cons]
      refine le_trans ?_ (ih (roundAcc acc f))
      unfold roundAcc
      cases collectorRound f with
      | none => simp
      | some r =>
          simp only []
          split <;> omega

theorem foldl_roundAcc_ge_elem (files : List String) (acc : Int) (f : String) (r : Nat)
    (hf : f ∈ files) (hr : collectorRound f = some r) :
    (r : Int) ≤ files.foldl roundAcc acc := by
  induction files generalizing acc with
  | nil => cases hf
  | cons g rest ih =>
      simp only [List.foldl_cons]
      rcases List.mem_cons.1 hf with hf | hf
      · subst hf
        refine le_trans ?_ (foldl_roundAcc_ge_acc rest (roundAcc acc f))
        unfold roundAcc
        rw [hr]
        simp only []
        split <;> omega
      · exact ih _ hf

theorem maxRoundFromFiles_nonneg (listing : Option (List String)) :
    0 ≤ maxRoundFromFiles listing := by
  cases listing with
  | none => simp [maxRoundFromFiles]
  | some files => exact foldl_roundAcc_ge_acc files 0

theorem foldl_roundAcc_no_match (files : List String) (acc : Int)
    (h : ∀ f ∈ files, collectorRound f = none) :
    files.foldl roundAcc acc = acc := by
  induction files generalizing acc with
  | nil => rfl
  | cons f rest ih =>
      simp only [List.foldl_cons]
      rw [show roundAcc acc f = acc by
        unfold roundAcc
        rw [h f (List.mem_cons_self _ _)]]
      exact ih _ (fun g hg => h g (List.mem_cons_of_mem _ hg))

/-- C2: `get_next_round_id` returns `max(persisted, max_scanned) + 1`, where
the persisted value is `0` for a missing or unparsable state file and the
scanned maximum is `0` for a missing directory or when no filename matches
the round pattern; it returns `1` when neither source exists, and its result
is strictly greater than the persisted value and than every round id in a
matching filename. -/
theorem C2_next_round (stateContent : Option String) (listing : Option (List String)) :
    get_next_round_id stateContent listing =
      max (lastRoundFromState stateContent) (maxRoundFromFiles listing) + 1 ∧
    (stateContent = none → lastRoundFromState stateContent = 0) ∧
    (∀ s, stateContent = some s → pyInt s = none → lastRoundFromState stateContent = 0) ∧
    (listing = none → maxRoundFromFiles listing = 0) ∧
    (∀ files, listing = some files → (∀ f ∈ files, collectorRound f = none) →
      maxRoundFromFiles listing = 0) ∧
    get_next_round_id none none = 1 ∧
    lastRoundFromState stateContent < get_next_round_id stateContent listing ∧
    (∀ files, listing = some files → ∀ f ∈ files, ∀ r : Nat, collectorRound f = some r →
      (r : Int) < get_next_round_id stateContent listing) := by
  refine ⟨rfl, ?_, ?_, ?_, ?_, rfl, ?_, ?_⟩
  · intro h
    rw [h]
    rfl
  · intro s h hp
    rw [h]
    simp [lastRoundFromState, hp]
  · intro h
    rw [h]
    rfl
  · intro files h hnone
    rw [h]
    unfold maxRoundFromFiles
    exact foldl_roundAcc_no_match files 0 hnone
  · have h1 : get_next_round_id stateContent listing =
        max (lastRoundFromState stateContent) (maxRoundFromFiles listing) + 1 := rfl
    rw [h1]
    have h2 := le_max_left (lastRoundFromState stateContent) (maxRoundFromFiles listing)
    omega
  · intro files h f hf r hr
    have h1 : get_next_round_id stateContent listing =
        max (lastRoundFromState stateContent) (maxRoundFromFiles listing) + 1 := rfl
    rw [h1]
    have h2 := le_max_right (lastRoundFromState stateContent) (maxRoundFromFiles listing)
    have hge : (r : Int) ≤ maxRoundFromFiles listing := by
      rw [h]
      exact foldl_roundAcc_ge_elem files 0 f r hf hr
    omega

/-- Witness for C2: the spec example — persisted state 5, highest round on
disk 7 — yields next round 8, which is strictly greater than both sources;
with neither source present the result is 1. -/
theorem C2_next_round_witness :
    get_next_round_id (some "5") (some ["round_7_1_10.jpg"]) = 8 ∧
    get_next_round_id none none = 1 ∧
    lastRoundFromState (some "5") < get_next_round_id (some "5") (some ["round_7_1_10.jpg"]) ∧
    (7 : Int) < get_next_round_id (some "5") (some ["round_7_1_10.jpg"]) :=
  ⟨by decide, by decide,
   (C2_next_round (some "5") (some ["round_7_1_10.jpg"])).2.2.2.2.2.2.1,
   (C2_next_round (some "5") (some ["round_7_1_10.jpg"])).2.2.2.2.2.2.2
     ["round_7_1_10.jpg"] rfl "round_7_1_10.jpg" (by decide) 7 (by decide)⟩

/- ----------------------------------------------------------------- -/
/- C7: inventory loading.                                             -/
/- ----------------------------------------------------------------- -/

/-- C7 counterexample: `round_1_2_3.JPG` matches the claimed frame-identity
pattern with case-insensitive extension, yet `load_frame_files` excludes it
(the regex requires a lowercase `.jpg`); conversely `round_1_2_3.jpg.jpg`
does not match the claimed pattern exactly, yet `load_frame_files` returns
it (the regex is a prefix match). -/
theorem C7_counterexample :
    specFramePattern "round_1_2_3.JPG" = true ∧
    load_frame_files (some ["round_1_2_3.JPG"]) = [] ∧
    specFramePattern "round_1_2_3.jpg.jpg" = false ∧
    load_frame_files (some ["round_1_2_3.jpg.jpg"]) = ["round_1_2_3.jpg.jpg"] :=
  ⟨by decide, by decide, by decide, by decide⟩

theorem processed_map_fst (files : List String) :
    ((files.filter (fun f => lowerEndsJpg f && startsRound f)).filterMap
        (fun f => (parseFrameName f).map (fun p => (f, p.1, p.2)))).map Prod.fst
      = files.filter acceptedFrameName := by
  induction files with
  | nil => rfl
  | cons f rest ih =>
      by_cases hpre : (lowerEndsJpg f && startsRound f) = true
      · cases hp : parseFrameName f with
        | none =>
            simp only [List.filter_cons, hpre, if_pos, List.filterMap_cons, hp,
              Option.map_none', ih, acceptedFrameName]
            simp
        | some p =>
            simp only [List.filter_cons, hpre, if_pos, List.filterMap_cons, hp,
              Option.map_some', List.map_cons, ih, acceptedFrameName]
            simp
      · have hpre' : (lowerEndsJpg f && startsRound f) = false := by
          cases hx : (lowerEndsJpg f && startsRound f)
          · rfl
          · exact absurd hx hpre
        simp only [List.filter_cons, acceptedFrameName, hpre', Bool.false_and,
          Bool.false_eq_true, if_false]
        exact ih

/-- C7 (amended): `load_frame_files` returns, for a present directory,
exactly the entries that pass the code's filter — lowercased name ending in
`.jpg`, name starting with `round_`, and a prefix of the name matching
`round_(\d+)_(\d+)_(\d+)\.jpg` with a lowercase literal extension — as a
permutation ordered ascending by the parsed `(round_id, sequence)` key; a
missing directory yields the empty list; and the spec's three-filename
example sorts as claimed. -/
theorem C7_inventory_amended (files : List String) :
    load_frame_files none = [] ∧
    (load_frame_files (some files)).Perm (files.filter acceptedFrameName) ∧
    List.Pairwise
      (fun a b => keyLe (a, (parseFrameName a).getD (0, 0)) (b, (parseFrameName b).getD (0, 0)))
      (load_frame_files (some files)) ∧
    load_frame_files (some ["round_2_1_100.jpg", "round_1_5_50.jpg", "round_1_2_10.jpg"]) =
      ["round_1_2_10.jpg", "round_1_5_50.jpg", "round_2_1_100.jpg"] := by
  refine ⟨rfl, ?_, ?_, by decide⟩
  · unfold load_frame_files
    calc ((List.insertionSort keyLe
            ((files.filter (fun f => lowerEndsJpg f && startsRound f)).filterMap
              (fun f => (parseFrameName f).map (fun p => (f, p.1, p.2))))).map Prod.fst).Perm
          (((files.filter (fun f => lowerEndsJpg f && startsRound f)).filterMap
              (fun f => (parseFrameName f).map (fun p => (f, p.1, p.2)))).map Prod.fst) :=
            (List.perm_insertionSort keyLe _).map Prod.fst
      _ = files.filter acceptedFrameName := processed_map_fst files
  · unfold load_frame_files
    rw [List.pairwise_map]
    have hsorted := List.sorted_insertionSort keyLe
      ((files.filter (fun f => lowerEndsJpg f && startsRound f)).filterMap
        (fun f => (parseFrameName f).map (fun p => (f, p.1, p.2))))
    refine List.Pairwise.imp_of_mem ?_ hsorted
    intro a b ha hb hr
    have hkey : ∀ t : String × Nat × Nat,
        t ∈ List.insertionSort keyLe
          ((files.filter (fun f => lowerEndsJpg f && startsRound f)).filterMap
            (fun f => (parseFrameName f).map (fun p => (f, p.1, p.2)))) →
        parseFrameName t.1 = some t.2 := by
      intro t ht
      have ht' := (List.Perm.mem_iff (List.perm_insertionSort keyLe _)).1 ht
      obtain ⟨g, _, hg⟩ := List.mem_filterMap.1 ht'
      obtain ⟨p, hp1, hp2⟩ := Option.map_eq_some'.1 hg
      rw [← hp2]
      rw [hp1]
    have hka := hkey a ha
    have hkb := hkey b hb
    unfold keyLe at hr ⊢
    rw [hka, hkb]
    simp only [Option.getD_some]
    exact hr

/-- Witness for the amended C7: a concrete unordered mixed listing. -/
theorem C7_inventory_amended_witness :
    load_frame_files none = [] ∧
    (load_frame_files (some ["round_2_1_100.jpg", "nope.txt", "round_1_5_50.jpg"])).Perm
      (["round_2_1_100.jpg", "nope.txt", "round_1_5_50.jpg"].filter acceptedFrameName) ∧
    List.Pairwise
      (fun a b => keyLe (a, (parseFrameName a).getD (0, 0)) (b, (parseFrameName b).getD (0, 0)))
      (load_frame_files (some ["round_2_1_100.jpg", "nope.txt", "round_1_5_50.jpg"])) ∧
    load_frame_files (some ["round_2_1_100.jpg", "round_1_5_50.jpg", "round_1_2_10.jpg"]) =
      ["round_1_2_10.jpg", "round_1_5_50.jpg", "round_2_1_100.jpg"] :=
  C7_inventory_amended ["round_2_1_100.jpg", "nope.txt", "round_1_5_50.jpg"]

/- ----------------------------------------------------------------- -/
/- C9: ledger save/load round-trip.                                   -/
/- ----------------------------------------------------------------- -/

theorem decMetadata_enc (m : Metadata) : decMetadata (encMetadata m) = some m := by
  cases m
  rfl

theorem decRecord_enc (r : Record) : decRecord (encRecord r) = some r := by
  obtain ⟨ci, cn, op, md, ca, sid, sn⟩ := r
  cases sid <;> cases sn <;>
    simp [encRecord, decRecord, lookupD, jStr, decMetadata_enc]

/-- C9: serialising the whole classification mapping (the JSON object that
`save_classifications` writes) and parsing it back (`load_classifications`)
reproduces a field-for-field identical mapping, for every ledger. -/
theorem C9_save_load_roundtrip (cls : List (String × Record)) :
    decLedger (encLedger cls) = some cls := by
  unfold decLedger encLedger
  induction cls with
  | nil => rfl
  | cons p rest ih =>
      simp only [List.map_cons, List.mapM_cons, decRecord_enc, Option.map_some',
        Option.bind_eq_bind, Option.some_bind, Prod.mk.eta] at ih ⊢
      rw [ih]
      rfl

end RTSP
